import Mathlib

/-!
Media-frame pipeline of the engine: frame model, AAC/audio track adapter.

A shallow embedding of `common/frame.go`, `track/aac.go` and `track/audio.go`,
and of `Assign` and `Merge` of `config/config.go`.

Conventions of the embedding

* A Go slice is a `GoSlice`: either `nil`, or the visible elements together
  with the elements of the backing array that lie between `len` and `cap`.
  Slices have value semantics here: two slices never share storage, except
  where a definition says so explicitly (the header and the trailer of an FLV
  tag, which `FillFLV` carves out of one 15-byte array).
* A byte is a `Nat`; every Go conversion `byte(x)` is `x % 256`, every
  conversion `uint32(x)` is `x % 2 ^ 32`, and byte-typed inputs are taken
  below 256.
* A Go run-time panic (index out of range, nil dereference) is the `panic`
  outcome, which keeps the state reached when the panic happened.
* Calls that leave the files above (the stream, the ring-buffer media base,
  the RTP packetizer) are recorded, in order, in a trace of events.
* A `Config` is an allocated Go map, given by its entries; a key is looked up
  at its first entry, and a map with distinct keys is one whose list of keys
  has no duplicate.
-/

namespace M7s

/-! ## Go slices -/

/-- A Go slice: `nil`, or visible elements plus the spare slots of the backing
array between `len` and `cap`. -/
inductive GoSlice (α : Type) where
  | nil : GoSlice α
  | mk (elems spare : List α) : GoSlice α
deriving DecidableEq, Repr

namespace GoSlice

variable {α : Type}

/-- The visible elements, `s[0:len(s)]`. -/
def toList : GoSlice α → List α
  | nil => []
  | mk elems _ => elems

/-- The slots of the backing array between `len(s)` and `cap(s)`. -/
def spareList : GoSlice α → List α
  | nil => []
  | mk _ spare => spare

/-- Go `len(s)`. -/
def len (s : GoSlice α) : Nat := s.toList.length

/-- Go `cap(s)`. -/
def cap (s : GoSlice α) : Nat := s.toList.length + s.spareList.length

/-- Go `s == nil`. -/
def isNil : GoSlice α → Bool
  | nil => true
  | mk _ _ => false

/-- A slice literal `[]T{x1, ..., xn}`: non-nil, capacity equal to length. -/
def ofList (l : List α) : GoSlice α := mk l []

/-- Go `s[i] = v` for an index in range. -/
def set : GoSlice α → Nat → α → GoSlice α
  | nil, _, _ => nil
  | mk elems spare, i, v => mk (elems.set i v) spare

/-- Go `s[i]`, `none` when the index is out of range. -/
def get? (s : GoSlice α) (i : Nat) : Option α := s.toList.get? i

/-- Go `s[:n]` for `n ≤ cap(s)`: the first `n` slots of the backing array become
visible; a nil slice stays nil. -/
def sliceTo : GoSlice α → Nat → GoSlice α
  | nil, _ => nil
  | mk elems spare, n => mk ((elems ++ spare).take n) ((elems ++ spare).drop n)

/-- Go `s[k:]` for `k ≤ len(s)`; a nil slice stays nil. -/
def sliceFrom : GoSlice α → Nat → GoSlice α
  | nil, _ => nil
  | mk elems spare, k => mk (elems.drop k) spare

/-- Go `append(s, xs...)`. Appending nothing returns `s`; when the elements fit
in the capacity they are stored in the spare slots; otherwise a new array is
allocated, whose capacity is taken to be exactly the new length. -/
def append : GoSlice α → List α → GoSlice α
  | s, [] => s
  | nil, x :: xs => mk (x :: xs) []
  | mk elems spare, x :: xs =>
    if elems.length + (x :: xs).length ≤ elems.length + spare.length then
      mk (elems ++ x :: xs) (spare.drop (x :: xs).length)
    else mk (elems ++ x :: xs) []

end GoSlice

/-- Go `[]byte`. -/
abbrev Bytes := GoSlice Nat

/-- Go `net.Buffers`, that is `[][]byte`. -/
abbrev Buffers := GoSlice Bytes

/-- The bytes of a list of buffers, concatenated in order. -/
def Buffers.bytes (b : Buffers) : List Nat := (b.toList.map GoSlice.toList).flatten

/-! ## Helpers of package `util` used by the frame model -/

/-- Modelled from the spec: `util.SizeOfBuffers` is not under src/; it is the
total byte length of a list of byte slices (the length `L` of the payload). -/
def SizeOfBuffers (bufs : GoSlice Bytes) : Nat := (bufs.toList.map GoSlice.len).sum

/-- Modelled from the spec: `util.PutBE` is not under src/; it stores the low
`n` bytes of `num` big-endian, `b[i] = byte(num >> ((n-i-1) << 3))`. The result
is the list of the `n` bytes stored. -/
def PutBE (n num : Nat) : List Nat :=
  (List.range n).map fun i => (num >>> ((n - i - 1) <<< 3)) % 256

/-- Modelled from the spec: `util.Buffer.Malloc` is not under src/; it grows the
buffer by `count` bytes and returns the new region `b[l:l+count]`. Within
capacity the region is the next `count` spare bytes of the backing array,
beyond it a zeroed array of the new length is allocated and the old bytes are
copied. The region aliases the buffer, so it is identified by its offset
`len(b)` before the call. -/
def Buffer.Malloc (b : Bytes) (count : Nat) : Bytes :=
  if b.len + count > b.cap then GoSlice.mk (b.toList ++ List.replicate count 0) []
  else GoSlice.mk (b.toList ++ b.spareList.take count) (b.spareList.drop count)

/-- Storing `bytes` into the region that the last `Malloc` returned, that is
over the last `bytes.length` visible bytes of the buffer. -/
def Buffer.fill (b : Bytes) (bytes : List Nat) : Bytes :=
  GoSlice.mk (b.toList.take (b.len - bytes.length) ++ bytes) b.spareList

/-- Modelled from the spec: `util.Buffer.WriteByte`, `b.Malloc(1)[0] = v`. -/
def Buffer.WriteByte (b : Bytes) (v : Nat) : Bytes :=
  Buffer.fill (Buffer.Malloc b 1) [v]

/-- Modelled from the spec: `util.Buffer.WriteUint24`, `PutBE(b.Malloc(3), v)`. -/
def Buffer.WriteUint24 (b : Bytes) (v : Nat) : Bytes :=
  Buffer.fill (Buffer.Malloc b 3) (PutBE 3 v)

/-! ## `common/frame.go` -/

/-- An RTP packet (`rtp.Packet` with the fields the tracks read) and its cached
serialization. -/
structure RTPFrame where
  Marker : Bool
  PayloadType : Nat
  SequenceNumber : Nat
  Timestamp : Nat
  Payload : Bytes
  Raw : Bytes
deriving DecidableEq, Repr

/-- The struct `AVFrame[AudioSlice]` with its embedded `BaseFrame`. -/
structure AVFrame where
  DeltaTime : Nat
  AbsTime : Nat
  Timestamp : Nat
  Sequence : Nat
  BytesIn : Int
  IFrame : Bool
  PTS : Nat
  DTS : Nat
  FLV : Buffers
  AVCC : Buffers
  RTP : GoSlice RTPFrame
  Raw : GoSlice Bytes
  canRead : Bool
deriving DecidableEq, Repr

namespace AVFrame

/-- `AVFrame.AppendRaw`. -/
def AppendRaw (av : AVFrame) (raw : List Bytes) : AVFrame :=
  { av with Raw := av.Raw.append raw }

/-- `AVFrame.AppendAVCC`. -/
def AppendAVCC (av : AVFrame) (avcc : List Bytes) : AVFrame :=
  { av with AVCC := av.AVCC.append avcc }

/-- `AVFrame.AppendRTP`. -/
def AppendRTP (av : AVFrame) (rtp : List RTPFrame) : AVFrame :=
  { av with RTP := av.RTP.append rtp }

/-- The header buffer `FillFLV` starts from: the first slot of the FLV list's
backing array, emptied, when that slot has capacity 15; `none` stands for the
Go `bytes == nil`. -/
def flvHeaderBuffer (av : AVFrame) : Option Bytes :=
  if av.FLV.cap > 0 then
    match (av.FLV.sliceTo 1).get? 0 with
    | some flv0 => if flv0.cap = 15 then some (flv0.sliceTo 0) else none
    | none => none
  else none

/-- `AVFrame.FillFLV`. The header `b` and the trailer `b.Malloc(4)` are two
windows of one array: the header is appended with length 11, and once the
trailer is written its spare capacity holds the trailer bytes. The tracks call
it on an empty FLV list only (the guard of `Audio.Flush`); there the recycled
buffer is not visible through the list, so overwriting it changes no visible
element. -/
def FillFLV (av : AVFrame) (t ts : Nat) : AVFrame :=
  let bytes : Bytes :=
    match av.flvHeaderBuffer with
    | some bytes => bytes
    | none => GoSlice.mk [] (List.replicate 15 0)
  let b := Buffer.WriteByte bytes t
  let dataSize := SizeOfBuffers av.AVCC
  let b := Buffer.WriteUint24 b (dataSize % 2 ^ 32)
  let b := Buffer.WriteUint24 b ts
  let b := Buffer.WriteByte b ((ts >>> 24) % 256)
  let b := Buffer.WriteUint24 b 0
  let l := b.len
  let b4 := Buffer.fill (Buffer.Malloc b 4) (PutBE 4 (dataSize + 11))
  let header : Bytes := GoSlice.mk (b4.toList.take l) (b4.toList.drop l ++ b4.spareList)
  let trailer : Bytes := GoSlice.mk (b4.toList.drop l) b4.spareList
  { av with FLV := ((av.FLV.append [header]).append av.AVCC.toList).append [trailer] }

/-- `AVFrame.Reset`. -/
def Reset (av : AVFrame) : AVFrame :=
  let av := if av.FLV.isNil = false then { av with FLV := av.FLV.sliceTo 0 } else av
  let av := if av.AVCC.isNil = false then { av with AVCC := av.AVCC.sliceTo 0 } else av
  { av with RTP := GoSlice.nil, Raw := GoSlice.nil }

end AVFrame

/-- `AVCCFrame.IsSequence`, `none` when `avcc[1]` is out of range. -/
def AVCCFrame.IsSequence (avcc : Bytes) : Option Bool :=
  match avcc.get? 1 with
  | some b => some (b == 0)
  | none => none

/-- `AVCCFrame.IsIDR`, `none` when `avcc[0]` is out of range. -/
def AVCCFrame.IsIDR (avcc : Bytes) : Option Bool :=
  match avcc.get? 0 with
  | some b =>
    let v := b >>> 4
    some (v == 1 || v == 4)
  | none => none

/-- `AVCCFrame.CTS`, `none` when `avcc[2]`, `avcc[3]` or `avcc[4]` is out of
range; the shifts are taken in `uint32`. -/
def AVCCFrame.CTS (avcc : Bytes) : Option Nat :=
  match avcc.get? 2, avcc.get? 3, avcc.get? 4 with
  | some b2, some b3, some b4 =>
    some (((b2 <<< 24) % 2 ^ 32) ||| ((b3 <<< 8) % 2 ^ 32) ||| b4)
  | _, _, _ => none

/-- `AVCCFrame.VideoCodecID`, `none` when `avcc[0]` is out of range. -/
def AVCCFrame.VideoCodecID (avcc : Bytes) : Option Nat :=
  match avcc.get? 0 with
  | some b => some (b &&& 0x0F)
  | none => none

/-- `AVCCFrame.AudioCodecID`, `none` when `avcc[0]` is out of range. -/
def AVCCFrame.AudioCodecID (avcc : Bytes) : Option Nat :=
  match avcc.get? 0 with
  | some b => some (b >>> 4)
  | none => none

/-- The struct `DecoderConfiguration[AudioSlice]`. -/
structure DecoderConfiguration where
  PayloadType : Nat
  AVCC : Buffers
  Raw : Bytes
  FLV : Buffers
  Seq : Int
deriving DecidableEq, Repr

/-! ## Collaborators that are not part of the three files -/

/-- Modelled from the spec: `codec.FLV_TAG_TYPE_AUDIO` is not under src/; the
FLV tag type `AUDIO`, 8. -/
def FLV_TAG_TYPE_AUDIO : Nat := 8

/-- Modelled from the spec: `codec.CodecID_AAC` is not under src/; the audio
codec id of AAC, 10. -/
def CodecID_AAC : Nat := 10

/-- Modelled from the spec: `codec.SamplingFrequencies` is not under src/; the
fixed 16-entry sampling-frequency table, in which index 4 is 44100. -/
def SamplingFrequencies : List Nat :=
  [96000, 88200, 64000, 48000, 44100, 32000, 24000, 22050, 16000, 12000, 11025, 8000, 7350,
    0, 0, 0]

/-- The flags of `config.Global` that the tracks read. -/
structure Engine where
  EnableAVCC : Bool
  EnableFLV : Bool
  EnableRTP : Bool
  RTPReorder : Bool
deriving DecidableEq, Repr

/-- The environment of a track: the global flags, and the results of the
functions of package `codec` and of the `Media` base that are not under src/
and that the track only passes along. -/
structure Env where
  Global : Engine
  /-- The raw units `codec.ParseRTPAAC` finds in an RTP payload. -/
  ParseRTPAAC : Bytes → List Bytes
  /-- The presentation timestamp `generateTimestamp` derives from the RTP
  packets of the frame. -/
  rtpTimestamp : GoSlice RTPFrame → Nat
  /-- The RTP packets `PacketizeRTP` builds from a payload. -/
  packets : Bytes → List RTPFrame
  /-- The in-progress frame after `Media.WriteAVCC`. -/
  mediaWriteAVCC : AVFrame → Nat → Bytes → AVFrame
  /-- The in-progress frame after `Media.Flush`: the next slot of the ring. -/
  mediaFlush : AVFrame → AVFrame

/-! ## `track/audio.go` and `track/aac.go` -/

/-- The struct `Audio`, with the fields of the embedded `Media[AudioSlice]`
that the two files use. `Stream` is `none` for a nil `IStream`; `Value` is
`Media.RingBuffer.Value`, the in-progress frame. -/
structure Audio where
  Name : String
  Stream : Option Nat
  SampleRate : Nat
  SampleSize : Nat
  DecoderConfiguration : DecoderConfiguration
  Value : AVFrame
  CodecID : Nat
  Channels : Nat
  AVCCHead : Bytes
  Profile : Nat
deriving DecidableEq, Repr

/-- One entry of the trace: a call of `Attach` or of `AAC.Flush` (with the state
they are entered in), or a call that leaves the three files. -/
inductive Event where
  /-- `Audio.Attach` is entered on this track. -/
  | Attach (a : Audio)
  /-- `AAC.Flush` is entered with this in-progress frame. -/
  | Flush (value : AVFrame)
  /-- `Stream.Error(msg, zap.ByteString("data", data))`. -/
  | StreamError (stream : Nat) (msg : String) (data : Bytes)
  /-- `Stream.AddTrack(a)`. -/
  | AddTrack (stream : Nat) (a : Audio)
  /-- `Stream.RemoveTrack(a)`. -/
  | RemoveTrack (stream : Nat) (a : Audio)
  /-- `Media.WriteSlice(slice)`. -/
  | WriteSlice (slice : Bytes)
  /-- `Media.generateTimestamp()`. -/
  | GenerateTimestamp
  /-- `Media.PacketizeRTP(payload)`. -/
  | PacketizeRTP (payload : Bytes)
  /-- `Media.WriteAVCC(ts, frame)`. -/
  | MediaWriteAVCC (ts : Nat) (frame : Bytes)
  /-- `Media.Flush()` with this completed frame. -/
  | MediaFlush (value : AVFrame)
deriving DecidableEq, Repr

/-- A track together with the trace of the calls made so far. -/
structure World where
  track : Audio
  trace : List Event
deriving DecidableEq, Repr

/-- The result of a method that can panic. -/
inductive Outcome where
  | ok (w : World)
  | panic (w : World)
deriving DecidableEq, Repr

namespace World

/-- Record an event at the end of the trace. -/
def emit (w : World) (e : Event) : World := { w with trace := w.trace ++ [e] }

/-- Replace the in-progress frame. -/
def setValue (w : World) (value : AVFrame) : World :=
  { w with track := { w.track with Value := value } }

end World

/-- The state an outcome ends in. -/
def Outcome.world : Outcome → World
  | .ok w => w
  | .panic w => w

/-- Whether the outcome is a panic. -/
def Outcome.panicked : Outcome → Bool
  | .ok _ => false
  | .panic _ => true

/-- `var adcflv1` of `track/audio.go`. -/
def adcflv1 : Bytes := GoSlice.ofList [ FLV_TAG_TYPE_AUDIO, 0, 0, 4, 0, 0, 0, 0, 0, 0, 0]

/-- `var adcflv2` of `track/audio.go`. -/
def adcflv2 : Bytes := GoSlice.ofList [0, 0, 0, 15]

/-- Modelled from the spec: `Media.WriteSlice` is not under src/; the raw unit
is appended to the in-progress frame with `AppendRaw`. -/
def Media.WriteSlice (w : World) (slice : Bytes) : World :=
  (w.emit (.WriteSlice slice)).setValue (w.track.Value.AppendRaw [slice])

/-- Modelled from the spec: `Media.generateTimestamp` is not under src/; the
presentation timestamp of the in-progress frame is derived from its RTP
packets. -/
def Media.generateTimestamp (env : Env) (w : World) : World :=
  (w.emit .GenerateTimestamp).setValue
    { w.track.Value with PTS := env.rtpTimestamp w.track.Value.RTP }

/-- Modelled from the spec: `Media.PacketizeRTP` is not under src/; the RTP
packets built from the payload are attached to the in-progress frame. -/
def Media.PacketizeRTP (env : Env) (w : World) (payload : Bytes) : World :=
  (w.emit (.PacketizeRTP payload)).setValue (w.track.Value.AppendRTP (env.packets payload))

/-- Modelled from the spec: `Media.WriteAVCC` is not under src/; it stores an
AVCC frame in the in-progress frame. -/
def Media.WriteAVCC (env : Env) (w : World) (ts : Nat) (frame : Bytes) : World :=
  (w.emit (.MediaWriteAVCC ts frame)).setValue (env.mediaWriteAVCC w.track.Value ts frame)

/-- Modelled from the spec: `Media.Flush` is not under src/; the completed frame
goes to the ring buffer and the next slot becomes the in-progress frame. -/
def Media.Flush (env : Env) (w : World) : World :=
  (w.emit (.MediaFlush w.track.Value)).setValue (env.mediaFlush w.track.Value)

/-- `Stream.Error(msg, data)` on the track's stream; a nil stream panics. -/
def Stream.Error (w : World) (msg : String) (data : Bytes) : Outcome :=
  match w.track.Stream with
  | some s => .ok (w.emit (.StreamError s msg data))
  | none => .panic w

namespace Audio

/-- `Audio.GetDecConfSeq`. -/
def GetDecConfSeq (a : Audio) : Int := a.DecoderConfiguration.Seq

/-- `Audio.Attach`: `a.Stream.AddTrack(a)`; a nil stream panics. -/
def Attach (w : World) : Outcome :=
  let w := w.emit (.Attach w.track)
  match w.track.Stream with
  | some s => .ok (w.emit (.AddTrack s w.track))
  | none => .panic w

/-- `Audio.Detach`: `a.Stream = nil`, then `a.Stream.RemoveTrack(a)`. -/
def Detach (w : World) : Outcome :=
  let w : World := { w with track := { w.track with Stream := none } }
  match w.track.Stream with
  | some s => .ok (w.emit (.RemoveTrack s w.track))
  | none => .panic w

/-- `Audio.WriteADTS`. -/
def WriteADTS (w : World) (adts : Bytes) : Outcome :=
  match adts.get? 2 with
  | none => .panic w
  | some adts2 =>
    let Profile := (((adts2 &&& 0xc0) >>> 6) + 1) % 256
    let w : World := { w with track := { w.track with Profile := Profile } }
    let sampleRate := (adts2 &&& 0x3c) >>> 2
    match adts.get? 3 with
    | none => .panic w
    | some adts3 =>
      let channel := (((adts2 &&& 0x1) <<< 2) % 256) ||| ((adts3 &&& 0xc0) >>> 6)
      let config1 := ((Profile <<< 3) % 256) ||| ((sampleRate &&& 0xe) >>> 1)
      let config2 := (((sampleRate &&& 0x1) <<< 7) % 256) ||| ((channel <<< 3) % 256)
      match SamplingFrequencies.get? sampleRate with
      | none => .panic w
      | some freq =>
        let avcc : Bytes := GoSlice.ofList [0xAF, 0x00, config1, config2]
        let w : World := { w with track := { w.track with
          SampleRate := freq % 2 ^ 32
          Channels := channel
          DecoderConfiguration :=
            { PayloadType := 97
              AVCC := GoSlice.ofList [avcc]
              Raw := avcc.sliceFrom 2
              FLV := GoSlice.ofList [adcflv1, avcc, adcflv2]
              Seq := 0 } } }
        Attach w

/-- The first step of `Audio.Flush`, "AVCC 格式补完": when the frame has no
AVCC buffer and AVCC or FLV output is enabled, `AVCCHead` and then every raw
unit are appended to the AVCC list. -/
def completeAVCC (g : Engine) (AVCCHead : Bytes) (value : AVFrame) : AVFrame :=
  if value.AVCC.len = 0 ∧ (g.EnableAVCC = true ∨ g.EnableFLV = true) then
    value.Raw.toList.foldl (fun value raw => value.AppendAVCC [raw])
      (value.AppendAVCC [AVCCHead])
  else value

/-- The second step of `Audio.Flush`, "FLV tag 补完": when the frame has no FLV
buffer and FLV output is enabled, the audio tag is built at `AbsTime`. -/
def completeFLV (g : Engine) (value : AVFrame) : AVFrame :=
  if value.FLV.len = 0 ∧ g.EnableFLV = true then
    value.FillFLV FLV_TAG_TYPE_AUDIO value.AbsTime
  else value

/-- `Audio.Flush`. `value` is the in-progress frame itself, not a copy of it. -/
def Flush (env : Env) (w : World) : World :=
  let value := w.track.Value
  let value := completeAVCC env.Global w.track.AVCCHead value
  let value := completeFLV env.Global value
  let w := w.setValue value
  let w :=
    if value.RTP.isNil = true ∧ env.Global.EnableRTP = true then
      let o : Bytes := value.Raw.toList.foldl (fun o raw => o.append raw.toList) GoSlice.nil
      Media.PacketizeRTP env w o
    else w
  Media.Flush env w

end Audio

namespace AAC

/-- `NewAAC`, for the fields of the model; the ring starts on a zero frame. -/
def NewAAC (stream : Option Nat) : Audio :=
  { Name := "aac"
    Stream := stream
    SampleRate := 0
    SampleSize := 16
    DecoderConfiguration :=
      { PayloadType := 97, AVCC := GoSlice.nil, Raw := GoSlice.nil, FLV := GoSlice.nil, Seq := 0 }
    Value :=
      { DeltaTime := 0, AbsTime := 0, Timestamp := 0, Sequence := 0, BytesIn := 0,
        IFrame := false, PTS := 0, DTS := 0, FLV := GoSlice.nil, AVCC := GoSlice.nil,
        RTP := GoSlice.nil, Raw := GoSlice.nil, canRead := false }
    CodecID := CodecID_AAC
    Channels := 0
    AVCCHead := GoSlice.ofList [0xAF, 1]
    Profile := 0 }

/-- The payload `AAC.Flush` builds for the packetizer: `make([]byte, 4, l+4)`,
the four bytes of the AU-header section, then every raw unit appended. -/
def rtpPayload (value : AVFrame) : Bytes :=
  let l := SizeOfBuffers value.Raw
  let o : Bytes := GoSlice.mk (List.replicate 4 0) (List.replicate l 0)
  let o := o.set 0 0x00
  let o := o.set 1 0x10
  let o := o.set 2 (((l &&& 0x1fe0) >>> 5) % 256)
  let o := o.set 3 (((l &&& 0x1f) <<< 3) % 256)
  value.Raw.toList.foldl (fun o raw => o.append raw.toList) o

/-- `AAC.Flush`. The call is recorded with the in-progress frame it finds;
`value` is that frame itself, not a copy of it. -/
def Flush (env : Env) (w : World) : World :=
  let w := w.emit (.Flush w.track.Value)
  let value := w.track.Value
  let w :=
    if value.RTP.isNil = true ∧ env.Global.EnableRTP = true then
      Media.PacketizeRTP env w (rtpPayload value)
    else w
  Audio.Flush env w

/-- `AAC.writeRTPFrame`. -/
def writeRTPFrame (env : Env) (w : World) (frame : RTPFrame) : World :=
  let w := (env.ParseRTPAAC frame.Payload).foldl (fun w payload => Media.WriteSlice w payload) w
  let w := w.setValue (w.track.Value.AppendRTP [frame])
  if frame.Marker = true then
    Flush env (Media.generateTimestamp env w)
  else w

/-- `AAC.WriteAVCC`. -/
def WriteAVCC (env : Env) (w : World) (ts : Nat) (frame : Bytes) : Outcome :=
  match AVCCFrame.IsSequence frame with
  | none => .panic w
  | some true =>
    if frame.len < 2 then
      Stream.Error w "AVCC sequence header too short" frame
    else
      let w : World := { w with track := { w.track with
        DecoderConfiguration := { w.track.DecoderConfiguration with
          AVCC := GoSlice.ofList [frame] } } }
      match frame.get? 2, frame.get? 3 with
      | some config1, some config2 =>
        let w : World := { w with track := { w.track with
          Profile := (config1 &&& 0xF8) >>> 3
          Channels := (config2 >>> 3) &&& 0x0F } }
        match SamplingFrequencies.get? ((((config1 &&& 0x7) <<< 1) % 256) ||| (config2 >>> 7)) with
        | none => .panic w
        | some freq =>
          let w : World := { w with track := { w.track with
            SampleRate := freq % 2 ^ 32
            DecoderConfiguration := { w.track.DecoderConfiguration with
              Raw := frame.sliceFrom 2
              FLV := GoSlice.ofList [adcflv1, frame, adcflv2] } } }
          Audio.Attach w
      | _, _ => .panic w
  | some false => .ok (Flush env (Media.WriteAVCC env w ts frame))

end AAC

/-- Whether the event is a call of `AAC.Flush`. -/
def Event.isFlush : Event → Bool
  | .Flush _ => true
  | _ => false

/-- Whether the event is a call of `Audio.Attach`. -/
def Event.isAttach : Event → Bool
  | .Attach _ => true
  | _ => false

/-! ## `config/config.go` -/

mutual
/-- A value of type `any` held in a `Config`: a nested `Config`, a
`map[string]any`, or a value of any other type. -/
inductive AnyValue where
  | other (v : Int)
  | config (m : Config)
  | map (m : Config)
/-- The type `Config`, a `map[string]any`: the entries of an allocated map, as
a list in which a key is looked up at its first entry. Maps have value
semantics here, and `range` visits the entries in the order of the list. -/
inductive Config where
  | empty
  | entry (k : String) (v : AnyValue) (rest : Config)
end

namespace Config

/-- Go `v, ok := config[k]`: `none` when the key is absent. -/
def get? : Config → String → Option AnyValue
  | .empty, _ => none
  | .entry k' v rest, k => if k' = k then some v else get? rest k

/-- Go `config[k] = v`. -/
def set : Config → String → AnyValue → Config
  | .empty, k, v => .entry k v .empty
  | .entry k' v' rest, k, v =>
    if k' = k then .entry k v rest else .entry k' v' (set rest k v)

/-- The keys of the entries, in order. -/
def keys : Config → List String
  | .empty => []
  | .entry k _ rest => k :: keys rest

/-- `Config.Assign`. The two type switches of the source are laid out as one
table, by the type of the source value and then by the type of `config[k]`:
a nested `Config` under `k` is assigned recursively from a `Config` or a
`map[string]any`, and left alone for any other source value; when `config[k]`
is not a `Config`, `config[k] = v`. -/
def Assign (config : Config) : Config → Config
  | .empty => config
  | .entry k (.config vv) rest =>
    match config.get? k with
    | some (.config m) => Assign (config.set k (.config (Assign m vv))) rest
    | _ => Assign (config.set k (.config vv)) rest
  | .entry k (.map vv) rest =>
    match config.get? k with
    | some (.config m) => Assign (config.set k (.config (Assign m vv))) rest
    | _ => Assign (config.set k (.map vv)) rest
  | .entry k (.other x) rest =>
    match config.get? k with
    | some (.config _) => Assign config rest
    | _ => Assign (config.set k (.other x)) rest

/-- `Config.Merge`, laid out like `Assign`. When the key is absent the source
switches on the type of `config[k]`: under a nested `Config` it merges
`v.(Config)`, an assertion that panics (`none`) when `v` is not a `Config`;
otherwise `config[k] = v`. When the key is present nothing is done. -/
def Merge (config : Config) : Config → Option Config
  | .empty => some config
  | .entry k (.config vv) rest =>
    match config.get? k with
    | none =>
      match config.get? k with
      | some (.config m) =>
        match Merge m vv with
        | some m => Merge (config.set k (.config m)) rest
        | none => none
      | _ => Merge (config.set k (.config vv)) rest
    | some _ => Merge config rest
  | .entry k (.map vv) rest =>
    match config.get? k with
    | none =>
      match config.get? k with
      | some (.config _) => none
      | _ => Merge (config.set k (.map vv)) rest
    | some _ => Merge config rest
  | .entry k (.other x) rest =>
    match config.get? k with
    | none =>
      match config.get? k with
      | some (.config _) => none
      | _ => Merge (config.set k (.other x)) rest
    | some _ => Merge config rest

end Config

/-- Whether the value is a `Config` or a `map[string]any`. -/
def AnyValue.isMap : AnyValue → Bool
  | .other _ => false
  | .config _ => true
  | .map _ => true

/-! ## The values `Audio.WriteADTS` derives from bytes 2 and 3 of the header -/

/-- The local `a.Profile` of `WriteADTS`: `((adts[2] & 0xc0) >> 6) + 1`. -/
def ADTS.profile (adts2 : Nat) : Nat := (((adts2 &&& 0xc0) >>> 6) + 1) % 256

/-- The local `sampleRate` of `WriteADTS`: `(adts[2] & 0x3c) >> 2`. -/
def ADTS.sampleRate (adts2 : Nat) : Nat := (adts2 &&& 0x3c) >>> 2

/-- The local `channel` of `WriteADTS`:
`((adts[2] & 0x1) << 2) | ((adts[3] & 0xc0) >> 6)`. -/
def ADTS.channel (adts2 adts3 : Nat) : Nat :=
  (((adts2 &&& 0x1) <<< 2) % 256) ||| ((adts3 &&& 0xc0) >>> 6)

/-- The local `config1` of `WriteADTS`:
`(a.Profile << 3) | ((sampleRate & 0xe) >> 1)`. -/
def ADTS.config1 (adts2 : Nat) : Nat :=
  ((ADTS.profile adts2 <<< 3) % 256) ||| ((ADTS.sampleRate adts2 &&& 0xe) >>> 1)

/-- The local `config2` of `WriteADTS`:
`((sampleRate & 0x1) << 7) | (channel << 3)`. -/
def ADTS.config2 (adts2 adts3 : Nat) : Nat :=
  (((ADTS.sampleRate adts2 &&& 0x1) <<< 7) % 256) ||| ((ADTS.channel adts2 adts3 <<< 3) % 256)

/-! ## Sample data -/

/-- A frame after `Reset`, with two AVCC buffers: its FLV list is empty but
keeps the capacity and the old 15-byte header buffer. -/
def sampleFrame : AVFrame :=
  { DeltaTime := 20, AbsTime := 0x01020304, Timestamp := 0, Sequence := 7, BytesIn := 5,
    IFrame := false, PTS := 0, DTS := 0
    FLV := GoSlice.mk [] [GoSlice.mk [8, 0, 0, 2, 0, 0, 0, 0, 0, 0, 0] [0, 0, 0, 13]]
    AVCC := GoSlice.ofList [GoSlice.ofList [0xAF, 1], GoSlice.ofList [9, 8, 7]]
    RTP := GoSlice.nil
    Raw := GoSlice.ofList [GoSlice.ofList [9, 8, 7]]
    canRead := false }

/-- An environment with every output enabled, one RTP packet per payload, and a
ring whose next slot is the current one after `Reset`. -/
def sampleEnv : Env :=
  { Global := { EnableAVCC := true, EnableFLV := true, EnableRTP := true, RTPReorder := false }
    ParseRTPAAC := fun p => [p.sliceFrom 4]
    rtpTimestamp := fun r =>
      match r.get? 0 with
      | some f => f.Timestamp
      | none => 0
    packets := fun p =>
      [{ Marker := true, PayloadType := 97, SequenceNumber := 0, Timestamp := 0, Payload := p,
         Raw := GoSlice.nil }]
    mediaWriteAVCC := fun v _ f => v.AppendAVCC [f]
    mediaFlush := fun v => v.Reset }

/-- A new AAC track on stream 1, with an empty trace. -/
def sampleWorld : World := { track := AAC.NewAAC (some 1), trace := [] }

/-- The AAC sequence header with configuration bytes `0x12 0x10`. -/
def sampleSequenceHeader : Bytes := GoSlice.ofList [0xAF, 0x00, 0x12, 0x10]

/-- An RTP packet without marker, carrying one access unit `[1, 2]`. -/
def sampleRTP1 : RTPFrame :=
  { Marker := false, PayloadType := 97, SequenceNumber := 1, Timestamp := 1024,
    Payload := GoSlice.ofList [0, 16, 0, 16, 1, 2], Raw := GoSlice.nil }

/-- An RTP packet with marker, carrying one access unit `[3]`. -/
def sampleRTP2 : RTPFrame :=
  { Marker := true, PayloadType := 97, SequenceNumber := 2, Timestamp := 1024,
    Payload := GoSlice.ofList [0, 16, 0, 8, 3], Raw := GoSlice.nil }

/-- A track whose in-progress frame holds the raw units `[1, 2, 3]` and `[4, 5]`
and no RTP packet. -/
def sampleRawWorld : World :=
  { track := { AAC.NewAAC (some 1) with
      Value := { (AAC.NewAAC (some 1)).Value with
        Raw := GoSlice.ofList [GoSlice.ofList [1, 2, 3], GoSlice.ofList [4, 5]] } }
    trace := [] }

/-- An ADTS header for AAC-LC, 44100 Hz, two channels. -/
def sampleADTS : Bytes := GoSlice.ofList [0xFF, 0xF1, 0x50, 0x80, 0x02, 0x1F, 0xFC]

/-- A track that has already counted three sequence frames. -/
def sampleSeqWorld : World :=
  { track := { AAC.NewAAC (some 1) with
      DecoderConfiguration := { (AAC.NewAAC (some 1)).DecoderConfiguration with Seq := 3 } }
    trace := [] }

/-- A sequence header of five bytes: `AF 00` and three configuration bytes. -/
def sampleLongSequenceHeader : Bytes := GoSlice.ofList [0xAF, 0x00, 0x12, 0x10, 0x56]

/-- A configuration with a nested section `rtmp` and a scalar `port`. -/
def sampleConfig : Config :=
  .entry "rtmp" (.config (.entry "chunksize" (.other 512) .empty))
    (.entry "port" (.other 1935) .empty)

/-- A source that gives a scalar for `rtmp`, a new `port` and a new key. -/
def sampleSource : Config :=
  .entry "rtmp" (.other 1) (.entry "port" (.other 8080) (.entry "loglevel" (.other 2) .empty))

/-! ## Lemmas on slices and buffers -/

theorem GoSlice.append_toList {α : Type} (s : GoSlice α) (xs : List α) :
    (s.append xs).toList = s.toList ++ xs := by
  cases s with
  | nil => cases xs <;> simp [GoSlice.append, GoSlice.toList]
  | mk elems spare =>
    cases xs with
    | nil => simp [GoSlice.append, GoSlice.toList]
    | cons x xs =>
      simp only [GoSlice.append]
      split <;> simp [GoSlice.toList]

theorem GoSlice.toList_eq_nil_of_len {α : Type} (s : GoSlice α) (h : s.len = 0) :
    s.toList = [] := by
  simpa [GoSlice.len] using h

theorem Buffers.bytes_append (b : Buffers) (xs : List Bytes) :
    Buffers.bytes (b.append xs) = Buffers.bytes b ++ (xs.map GoSlice.toList).flatten := by
  simp [Buffers.bytes, GoSlice.append_toList]

theorem SizeOfBuffers_eq (b : Buffers) : SizeOfBuffers b = (Buffers.bytes b).length := by
  simp only [SizeOfBuffers, Buffers.bytes, List.length_flatten, List.map_map]
  rfl

theorem Buffer.Malloc_toList_length (b : Bytes) (count : Nat) :
    (Buffer.Malloc b count).toList.length = b.toList.length + count := by
  unfold Buffer.Malloc
  split
  · simp [GoSlice.toList]
  · rename_i h
    simp only [GoSlice.len, GoSlice.cap] at h
    simp [GoSlice.toList]
    omega

theorem Buffer.Malloc_toList_take (b : Bytes) (count : Nat) :
    (Buffer.Malloc b count).toList.take b.toList.length = b.toList := by
  unfold Buffer.Malloc
  split <;> simp [GoSlice.toList]

/-- Writing `bytes` through `Malloc` appends them, within capacity or not. -/
theorem Buffer.fill_Malloc_toList (b : Bytes) (bytes : List Nat) :
    (Buffer.fill (Buffer.Malloc b bytes.length) bytes).toList = b.toList ++ bytes := by
  show List.take ((Buffer.Malloc b bytes.length).toList.length - bytes.length)
      (Buffer.Malloc b bytes.length).toList ++ bytes = b.toList ++ bytes
  rw [Buffer.Malloc_toList_length, Nat.add_sub_cancel, Buffer.Malloc_toList_take]

theorem PutBE_three (v : Nat) :
    PutBE 3 v = [(v >>> 16) % 256, (v >>> 8) % 256, v % 256] := by
  simp [PutBE, List.range, List.range.loop]

theorem PutBE_four (v : Nat) :
    PutBE 4 v = [(v >>> 24) % 256, (v >>> 16) % 256, (v >>> 8) % 256, v % 256] := by
  simp [PutBE, List.range, List.range.loop]

theorem Buffer.WriteByte_toList (b : Bytes) (v : Nat) :
    (Buffer.WriteByte b v).toList = b.toList ++ [v] :=
  Buffer.fill_Malloc_toList b [v]

theorem Buffer.WriteUint24_toList (b : Bytes) (v : Nat) :
    (Buffer.WriteUint24 b v).toList
      = b.toList ++ [(v >>> 16) % 256, (v >>> 8) % 256, v % 256] := by
  have h := Buffer.fill_Malloc_toList b (PutBE 3 v)
  rw [PutBE_three] at h
  simpa [Buffer.WriteUint24, PutBE_three] using h

theorem AVFrame.flvHeaderBuffer_toList (av : AVFrame) (b : Bytes)
    (h : av.flvHeaderBuffer = some b) : b.toList = [] := by
  unfold AVFrame.flvHeaderBuffer at h
  split at h
  · split at h
    · rename_i flv0 _
      split at h
      · cases flv0 <;> simp [GoSlice.sliceTo] at h <;> subst h <;> simp [GoSlice.toList]
      · cases h
    · cases h
  · cases h

/-- The eleven header bytes and the four trailer bytes that `FillFLV` writes. -/
theorem AVFrame.FillFLV_FLV_toList (av : AVFrame) (t ts : Nat) :
    ((av.FillFLV t ts).FLV.toList.map GoSlice.toList).flatten
      = Buffers.bytes av.FLV
        ++ [t, ((SizeOfBuffers av.AVCC % 2 ^ 32) >>> 16) % 256,
            ((SizeOfBuffers av.AVCC % 2 ^ 32) >>> 8) % 256,
            (SizeOfBuffers av.AVCC % 2 ^ 32) % 256,
            (ts >>> 16) % 256, (ts >>> 8) % 256, ts % 256, (ts >>> 24) % 256, 0, 0, 0]
        ++ Buffers.bytes av.AVCC
        ++ [((SizeOfBuffers av.AVCC + 11) >>> 24) % 256,
            ((SizeOfBuffers av.AVCC + 11) >>> 16) % 256,
            ((SizeOfBuffers av.AVCC + 11) >>> 8) % 256,
            (SizeOfBuffers av.AVCC + 11) % 256] := by
  have hb : ∀ bytes : Bytes, bytes.toList = [] →
      (Buffer.WriteUint24 (Buffer.WriteByte (Buffer.WriteUint24 (Buffer.WriteUint24
        (Buffer.WriteByte bytes t) (SizeOfBuffers av.AVCC % 2 ^ 32)) ts)
          ((ts >>> 24) % 256)) 0).toList
        = [t, ((SizeOfBuffers av.AVCC % 2 ^ 32) >>> 16) % 256,
            ((SizeOfBuffers av.AVCC % 2 ^ 32) >>> 8) % 256,
            (SizeOfBuffers av.AVCC % 2 ^ 32) % 256,
            (ts >>> 16) % 256, (ts >>> 8) % 256, ts % 256, (ts >>> 24) % 256, 0, 0, 0] := by
    intro bytes h0
    simp [Buffer.WriteUint24_toList, Buffer.WriteByte_toList, h0]
  have h4 : ∀ b : Bytes, (Buffer.fill (Buffer.Malloc b 4) (PutBE 4 (SizeOfBuffers av.AVCC + 11))).toList
      = b.toList ++ PutBE 4 (SizeOfBuffers av.AVCC + 11) := by
    intro b
    have := Buffer.fill_Malloc_toList b (PutBE 4 (SizeOfBuffers av.AVCC + 11))
    simpa [PutBE_four] using this
  have hinit : ∀ o : Option Bytes, (∀ x, o = some x → x.toList = []) →
      (match o with
        | some bytes => bytes
        | none => GoSlice.mk [] (List.replicate 15 0)).toList = [] := by
    intro o ho
    cases o with
    | none => rfl
    | some x => exact ho x rfl
  have h0 := hinit av.flvHeaderBuffer (AVFrame.flvHeaderBuffer_toList av)
  simp only [AVFrame.FillFLV, GoSlice.append_toList, h4, GoSlice.len, hb _ h0]
  simp [Buffers.bytes, GoSlice.toList, PutBE_four]


/-! ## Lemmas on byte arithmetic -/

theorem byte_and_eq_mod (x : Nat) : x &&& 0xFF = x % 256 :=
  Nat.and_pow_two_sub_one_eq_mod x 8

theorem uint32_shift_byte (x k : Nat) (hk : k ≤ 24) :
    ((x % 2 ^ 32) >>> k) % 256 = (x >>> k) % 256 := by
  simp only [Nat.shiftRight_eq_div_pow]
  have h32 : (2 : Nat) ^ 32 = 2 ^ k * 2 ^ (32 - k) := by
    rw [← pow_add]; congr 1; omega
  have h256 : (256 : Nat) ∣ 2 ^ (32 - k) := by
    have : (256 : Nat) = 2 ^ 8 := by norm_num
    rw [this]
    exact pow_dvd_pow 2 (by omega)
  rw [h32, Nat.mod_mul_right_div_self, Nat.mod_mod_of_dvd _ h256]

theorem SamplingFrequencies_get (i : Nat) (h : i < 16) :
    ∃ freq, SamplingFrequencies.get? i = some freq ∧ freq < 2 ^ 32 := by
  interval_cases i <;> simp [SamplingFrequencies]

theorem aac_index_lt (c1 c2 : Nat) (h2 : c2 < 256) :
    ((((c1 &&& 0x7) <<< 1) % 256) ||| (c2 >>> 7)) < 16 := by
  have h1 : c1 &&& 0x7 ≤ 7 := Nat.and_le_right
  have ha : ((c1 &&& 0x7) <<< 1) % 256 < 2 ^ 4 := by
    rw [Nat.shiftLeft_eq]; omega
  have hb : c2 >>> 7 < 2 ^ 4 := by
    rw [Nat.shiftRight_eq_div_pow]; omega
  exact Nat.or_lt_two_pow ha hb

theorem Audio.Attach_track (w : World) : (Audio.Attach w).world.track = w.track := by
  unfold Audio.Attach
  cases h : w.track.Stream <;> simp [World.emit, Outcome.world, h]

/-! ## Lemmas on the completion steps of `Audio.Flush` -/

theorem AVFrame.foldl_AppendAVCC (raws : List Bytes) (v : AVFrame) :
    (raws.foldl (fun value raw => value.AppendAVCC [raw]) v)
      = { v with AVCC := raws.foldl (fun a raw => a.append [raw]) v.AVCC } := by
  induction raws generalizing v with
  | nil => rfl
  | cons r rs ih => simp only [List.foldl_cons, ih]; rfl

theorem GoSlice.foldl_append_toList {α : Type} (raws : List α) (a : GoSlice α) :
    (raws.foldl (fun a raw => a.append [raw]) a).toList = a.toList ++ raws := by
  induction raws generalizing a with
  | nil => simp
  | cons r rs ih => simp [ih, GoSlice.append_toList]

theorem Audio.completeAVCC_eq_of_not (g : Engine) (head : Bytes) (x : AVFrame)
    (h : x.AVCC.len ≠ 0 ∨ (g.EnableAVCC = false ∧ g.EnableFLV = false)) :
    Audio.completeAVCC g head x = x := by
  unfold Audio.completeAVCC
  split
  · rename_i hc
    rcases h with h | ⟨h1, h2⟩
    · exact absurd hc.1 h
    · rcases hc.2 with hc | hc
      · rw [h1] at hc; cases hc
      · rw [h2] at hc; cases hc
  · rfl

theorem Audio.completeAVCC_post (g : Engine) (head : Bytes) (v : AVFrame) :
    (Audio.completeAVCC g head v).AVCC.len ≠ 0
      ∨ (g.EnableAVCC = false ∧ g.EnableFLV = false) := by
  unfold Audio.completeAVCC
  split
  · left
    rw [AVFrame.foldl_AppendAVCC]
    simp [GoSlice.len, GoSlice.foldl_append_toList, AVFrame.AppendAVCC, GoSlice.append_toList]
  · rename_i hc
    by_cases h0 : v.AVCC.len = 0
    · right
      cases h1 : g.EnableAVCC <;> cases h2 : g.EnableFLV <;> simp_all
    · left; exact h0

theorem Audio.completeFLV_AVCC (g : Engine) (y : AVFrame) :
    (Audio.completeFLV g y).AVCC = y.AVCC := by
  unfold Audio.completeFLV
  split <;> rfl

theorem Audio.completeFLV_eq_of_not (g : Engine) (x : AVFrame)
    (h : x.FLV.len ≠ 0 ∨ g.EnableFLV = false) : Audio.completeFLV g x = x := by
  unfold Audio.completeFLV
  split
  · rename_i hc
    rcases h with h | h
    · exact absurd hc.1 h
    · rw [h] at hc; cases hc.2
  · rfl

theorem AVFrame.FillFLV_FLV_len (av : AVFrame) (t ts : Nat) : (av.FillFLV t ts).FLV.len ≠ 0 := by
  simp [AVFrame.FillFLV, GoSlice.len, GoSlice.append_toList]

theorem Audio.completeFLV_post (g : Engine) (y : AVFrame) :
    (Audio.completeFLV g y).FLV.len ≠ 0 ∨ g.EnableFLV = false := by
  unfold Audio.completeFLV
  split
  · left; exact AVFrame.FillFLV_FLV_len _ _ _
  · rename_i hc
    by_cases h0 : y.FLV.len = 0
    · right
      cases h2 : g.EnableFLV <;> simp_all
    · left; exact h0

/-! ## Lemmas on the RTP path -/

theorem Media.foldl_WriteSlice (ps : List Bytes) (w : World) :
    (ps.foldl (fun w payload => Media.WriteSlice w payload) w).trace
        = w.trace ++ ps.map Event.WriteSlice
    ∧ (ps.foldl (fun w payload => Media.WriteSlice w payload) w).track.Value.RTP
        = w.track.Value.RTP
    ∧ (ps.foldl (fun w payload => Media.WriteSlice w payload) w).track.AVCCHead
        = w.track.AVCCHead := by
  induction ps generalizing w with
  | nil => simp
  | cons p ps ih =>
    simp only [List.foldl_cons, List.map_cons]
    obtain ⟨h1, h2, h3⟩ := ih (Media.WriteSlice w p)
    rw [h1, h2, h3]
    simp [Media.WriteSlice, World.emit, World.setValue, AVFrame.AppendRaw]

theorem GoSlice.append_cons_isNil {α : Type} (s : GoSlice α) (x : α) (xs : List α) :
    (s.append (x :: xs)).isNil = false := by
  cases s with
  | nil => rfl
  | mk elems spare =>
    simp only [GoSlice.append]
    split <;> rfl

theorem Audio.completeAVCC_RTP (g : Engine) (head : Bytes) (v : AVFrame) :
    (Audio.completeAVCC g head v).RTP = v.RTP := by
  unfold Audio.completeAVCC
  split
  · rw [AVFrame.foldl_AppendAVCC]; rfl
  · rfl

theorem Audio.completeFLV_RTP (g : Engine) (v : AVFrame) :
    (Audio.completeFLV g v).RTP = v.RTP := by
  unfold Audio.completeFLV
  split <;> rfl

/-- A frame without marker: its raw units are written, it joins the RTP list. -/
theorem AAC.writeRTPFrame_no_marker (env : Env) (w : World) (f : RTPFrame)
    (h : f.Marker = false) :
    (AAC.writeRTPFrame env w f).trace
        = w.trace ++ (env.ParseRTPAAC f.Payload).map Event.WriteSlice
    ∧ (AAC.writeRTPFrame env w f).track.Value.RTP.toList = w.track.Value.RTP.toList ++ [f]
    ∧ (AAC.writeRTPFrame env w f).track.AVCCHead = w.track.AVCCHead := by
  obtain ⟨h1, h2, h3⟩ := Media.foldl_WriteSlice (env.ParseRTPAAC f.Payload) w
  simp [AAC.writeRTPFrame, h, World.setValue, h1, h2, h3, AVFrame.AppendRTP,
    GoSlice.append_toList]

/-- The events of the frames' raw units, in order. -/
theorem AAC.foldl_writeRTPFrame_no_marker (env : Env) (fs : List RTPFrame) (w : World)
    (h : ∀ f ∈ fs, f.Marker = false) :
    (fs.foldl (AAC.writeRTPFrame env) w).trace
        = w.trace ++ (fs.map fun f => (env.ParseRTPAAC f.Payload).map Event.WriteSlice).flatten
    ∧ (fs.foldl (AAC.writeRTPFrame env) w).track.Value.RTP.toList
        = w.track.Value.RTP.toList ++ fs
    ∧ (fs.foldl (AAC.writeRTPFrame env) w).track.AVCCHead = w.track.AVCCHead := by
  induction fs generalizing w with
  | nil => simp
  | cons f fs ih =>
    have hf := AAC.writeRTPFrame_no_marker env w f (h f (List.mem_cons_self _ _))
    obtain ⟨h1, h2, h3⟩ := ih (AAC.writeRTPFrame env w f)
      (fun g hg => h g (List.mem_cons_of_mem _ hg))
    simp only [List.foldl_cons, List.map_cons, List.flatten_cons]
    rw [h1, h2, h3, hf.1, hf.2.1, hf.2.2]
    simp

/-- The frame with the marker: after its raw units and itself are stored,
`generateTimestamp` and `Flush` are called, and `Flush` goes straight to
`Media.Flush`, the RTP list being non-nil. -/
theorem AAC.writeRTPFrame_marker (env : Env) (w : World) (f : RTPFrame)
    (h : f.Marker = true) :
    ∃ value : AVFrame,
      (AAC.writeRTPFrame env w f).trace
        = w.trace ++ (env.ParseRTPAAC f.Payload).map Event.WriteSlice
          ++ [Event.GenerateTimestamp, Event.Flush value,
              Event.MediaFlush (Audio.completeFLV env.Global
                (Audio.completeAVCC env.Global w.track.AVCCHead value))]
      ∧ value.RTP.toList = w.track.Value.RTP.toList ++ [f] := by
  obtain ⟨h1, h2, h3⟩ := Media.foldl_WriteSlice (env.ParseRTPAAC f.Payload) w
  refine ⟨{ ((env.ParseRTPAAC f.Payload).foldl (fun w payload => Media.WriteSlice w payload)
      w).track.Value.AppendRTP [f] with
      PTS := env.rtpTimestamp (((env.ParseRTPAAC f.Payload).foldl
        (fun w payload => Media.WriteSlice w payload) w).track.Value.AppendRTP [f]).RTP }, ?_, ?_⟩
  · simp [AAC.writeRTPFrame, h, AAC.Flush, Audio.Flush, Media.generateTimestamp, Media.Flush,
      World.setValue, World.emit, h1, h3, AVFrame.AppendRTP, GoSlice.append_cons_isNil,
      Audio.completeAVCC_RTP, Audio.completeFLV_RTP]
  · simp [AVFrame.AppendRTP, GoSlice.append_toList, h2]

theorem GoSlice.foldl_appendAll_toList (raws : List Bytes) (o : Bytes) :
    (raws.foldl (fun o raw => o.append raw.toList) o).toList
      = o.toList ++ (raws.map GoSlice.toList).flatten := by
  induction raws generalizing o with
  | nil => simp
  | cons r rs ih => simp [ih, GoSlice.append_toList]

theorem au_header_bits (l : Nat) (hl : l < 8192) :
    ((l &&& 0x1fe0) >>> 5) % 256 = l / 32 ∧ ((l &&& 0x1f) <<< 3) % 256 = (l % 32) * 8 := by
  have h1 : (l &&& 0x1fe0) >>> 5 = (l >>> 5) &&& 0xFF := by
    apply Nat.eq_of_testBit_eq
    intro i
    have e : Nat.testBit ((0xFF : Nat) <<< 5) (5 + i) = Nat.testBit 0xFF i := by
      rw [Nat.testBit_shiftLeft]
      simp
    have e2 : ((0xFF : Nat) <<< 5) = 0x1fe0 := by decide
    rw [e2] at e
    simp only [Nat.testBit_shiftRight, Nat.testBit_and, e]
  have h2 : l &&& 0x1f = l % 32 := Nat.and_pow_two_sub_one_eq_mod l 5
  rw [h1, h2, byte_and_eq_mod, Nat.shiftRight_eq_div_pow, Nat.shiftLeft_eq]
  constructor <;> omega

/-! ## Lemmas on the trace -/

theorem Audio.Flush_trace (env : Env) (w : World) :
    ∃ r, (Audio.Flush env w).trace = w.trace ++ r ∧ ∀ e ∈ r, Event.isAttach e = false := by
  unfold Audio.Flush
  simp only [Media.Flush, Media.PacketizeRTP, World.emit, World.setValue]
  split
  · refine ⟨_, List.append_assoc _ _ _, ?_⟩
    intro e he
    simp only [List.mem_append, List.mem_singleton] at he
    rcases he with rfl | rfl <;> rfl
  · refine ⟨_, rfl, ?_⟩
    intro e he
    simp only [List.mem_singleton] at he
    subst he
    rfl

theorem AAC.aacFlush_trace (env : Env) (w : World) :
    ∃ r, (AAC.Flush env w).trace = w.trace ++ r ∧ ∀ e ∈ r, Event.isAttach e = false := by
  unfold AAC.Flush
  simp only []
  split
  · obtain ⟨r, h1, h2⟩ := Audio.Flush_trace env
      (Media.PacketizeRTP env (w.emit (Event.Flush w.track.Value))
        (AAC.rtpPayload (w.emit (Event.Flush w.track.Value)).track.Value))
    refine ⟨[Event.Flush w.track.Value]
      ++ ([Event.PacketizeRTP (AAC.rtpPayload w.track.Value)] ++ r), ?_, ?_⟩
    · rw [h1]
      simp [Media.PacketizeRTP, World.emit, World.setValue]
    · intro e he
      simp only [List.mem_append, List.mem_singleton] at he
      rcases he with rfl | rfl | he
      · rfl
      · rfl
      · exact h2 e he
  · obtain ⟨r, h1, h2⟩ := Audio.Flush_trace env (w.emit (Event.Flush w.track.Value))
    refine ⟨[Event.Flush w.track.Value] ++ r, ?_, ?_⟩
    · rw [h1]; simp [World.emit]
    · intro e he
      simp only [List.mem_append, List.mem_singleton] at he
      rcases he with rfl | he
      · rfl
      · exact h2 e he

/-- The runs of `AAC.WriteAVCC`: either no `Attach` is recorded, or the frame is
a sequence header with two configuration bytes and the run ends in `Attach` on
the track with the configuration installed. -/
theorem AAC.WriteAVCC_cases (env : Env) (w : World) (ts : Nat) (frame : Bytes) :
    (∃ r, (AAC.WriteAVCC env w ts frame).world.trace = w.trace ++ r
        ∧ ∀ e ∈ r, Event.isAttach e = false)
    ∨ (∃ c1 c2 freq, frame.get? 1 = some 0 ∧ frame.get? 2 = some c1 ∧ frame.get? 3 = some c2
        ∧ AAC.WriteAVCC env w ts frame = Audio.Attach
            { w with track := { w.track with
                Profile := (c1 &&& 0xF8) >>> 3
                Channels := (c2 >>> 3) &&& 0x0F
                SampleRate := freq % 2 ^ 32
                DecoderConfiguration := { w.track.DecoderConfiguration with
                  AVCC := GoSlice.ofList [frame]
                  Raw := frame.sliceFrom 2
                  FLV := GoSlice.ofList [adcflv1, frame, adcflv2] } } }) := by
  cases h1 : frame.get? 1 with
  | none =>
    left
    exact ⟨[], by simp [AAC.WriteAVCC, AVCCFrame.IsSequence, h1, Outcome.world], by simp⟩
  | some b =>
    by_cases hb : b = 0
    · subst hb
      have hlen : ¬ frame.len < 2 := by
        have : 1 < frame.toList.length := by
          by_contra hc
          have : frame.toList.get? 1 = none := List.get?_eq_none.mpr (by omega)
          rw [GoSlice.get?] at h1
          rw [this] at h1
          cases h1
        simp only [GoSlice.len]; omega
      cases h2 : frame.get? 2 with
      | none =>
        left
        exact ⟨[], by simp [AAC.WriteAVCC, AVCCFrame.IsSequence, h1, h2, hlen, Outcome.world],
          by simp⟩
      | some c1 =>
        cases h3 : frame.get? 3 with
        | none =>
          left
          exact ⟨[], by simp [AAC.WriteAVCC, AVCCFrame.IsSequence, h1, h2, h3, hlen,
            Outcome.world], by simp⟩
        | some c2 =>
          cases hf : SamplingFrequencies.get? ((((c1 &&& 0x7) <<< 1) % 256) ||| (c2 >>> 7)) with
          | none =>
            left
            simp only [List.get?_eq_getElem?] at hf
            exact ⟨[], by simp [AAC.WriteAVCC, AVCCFrame.IsSequence, h1, h2, h3, hlen, hf,
              Outcome.world], by simp⟩
          | some freq =>
            right
            simp only [List.get?_eq_getElem?] at hf
            exact ⟨c1, c2, freq, rfl, rfl, rfl, by
              simp [AAC.WriteAVCC, AVCCFrame.IsSequence, h1, h2, h3, hlen, hf]⟩
    · left
      obtain ⟨r, hr1, hr2⟩ := AAC.aacFlush_trace env (Media.WriteAVCC env w ts frame)
      have hbf : (b == 0) = false := by simp [hb]
      refine ⟨[Event.MediaWriteAVCC ts frame] ++ r, ?_, ?_⟩
      · simp only [AAC.WriteAVCC, AVCCFrame.IsSequence, h1, hbf, Outcome.world, hr1]
        simp [Media.WriteAVCC, World.emit, World.setValue]
      · intro e he
        simp only [List.mem_append, List.mem_singleton] at he
        rcases he with rfl | he
        · rfl
        · exact hr2 e he

/-- The runs of `Audio.WriteADTS`: a panic that records nothing, or `Attach` on
the track with the configuration built from the header installed. -/
theorem Audio.WriteADTS_cases (w : World) (adts : Bytes) :
    (Audio.WriteADTS w adts).world.trace = w.trace
    ∨ (∃ c1 c2 freq channel profile, Audio.WriteADTS w adts = Audio.Attach
        { w with track := { w.track with
            Profile := profile
            SampleRate := freq % 2 ^ 32
            Channels := channel
            DecoderConfiguration :=
              { PayloadType := 97
                AVCC := GoSlice.ofList [GoSlice.ofList [0xAF, 0x00, c1, c2]]
                Raw := (GoSlice.ofList [0xAF, 0x00, c1, c2]).sliceFrom 2
                FLV := GoSlice.ofList [adcflv1, GoSlice.ofList [0xAF, 0x00, c1, c2], adcflv2]
                Seq := 0 } } }) := by
  cases h2 : adts.get? 2 with
  | none => left; simp [Audio.WriteADTS, h2, Outcome.world]
  | some adts2 =>
    cases h3 : adts.get? 3 with
    | none => left; simp [Audio.WriteADTS, h2, h3, Outcome.world]
    | some adts3 =>
      cases hf : SamplingFrequencies.get? ((adts2 &&& 0x3c) >>> 2) with
      | none =>
        left
        simp only [List.get?_eq_getElem?] at hf
        simp [Audio.WriteADTS, h2, h3, hf, Outcome.world]
      | some freq =>
        right
        refine ⟨((((((adts2 &&& 0xc0) >>> 6) + 1) % 256) <<< 3) % 256)
              ||| ((((adts2 &&& 0x3c) >>> 2) &&& 0xe) >>> 1),
          ((((((adts2 &&& 0x3c) >>> 2) &&& 0x1) <<< 7) % 256)
              ||| ((((((adts2 &&& 0x1) <<< 2) % 256) ||| ((adts3 &&& 0xc0) >>> 6)) <<< 3) % 256)),
          freq, ((((adts2 &&& 0x1) <<< 2) % 256) ||| ((adts3 &&& 0xc0) >>> 6)),
          ((((adts2 &&& 0xc0) >>> 6) + 1) % 256), ?_⟩
        simp only [Audio.WriteADTS, h2, h3, hf]

/-- The only `Attach` event that `Audio.Attach` records carries the track it was
called on. -/
theorem Audio.Attach_trace (w : World) (a : Audio) (n : Nat) (hn : n = w.trace.length)
    (h : Event.Attach a ∈ (Audio.Attach w).world.trace.drop n) :
    a = w.track := by
  subst hn
  unfold Audio.Attach at h
  cases hs : w.track.Stream <;>
    simp [World.emit, Outcome.world, hs] at h <;> exact h

theorem List.not_mem_drop_of_eq_append {α : Type} (l r : List α) (t : List α) (x : α)
    (ht : t = l ++ r) (hr : x ∉ r) : x ∉ t.drop l.length := by
  rw [ht, List.drop_left]; exact hr

/-- The run of `AAC.WriteAVCC` on a sequence header with two configuration
bytes whose index is in the table: the configuration is installed and `Attach`
is called. -/
theorem WriteAVCC_run_of_header (env : Env) (w : World) (ts : Nat) (frame : Bytes)
    (c1 c2 freq : Nat) (h1 : frame.get? 1 = some 0)
    (h2 : frame.get? 2 = some c1) (h3 : frame.get? 3 = some c2)
    (hfreq : SamplingFrequencies.get? ((((c1 &&& 0x7) <<< 1) % 256) ||| (c2 >>> 7))
      = some freq) :
    AAC.WriteAVCC env w ts frame = Audio.Attach
      { w with track := { w.track with
          Profile := (c1 &&& 0xF8) >>> 3
          Channels := (c2 >>> 3) &&& 0x0F
          SampleRate := freq % 2 ^ 32
          DecoderConfiguration := { w.track.DecoderConfiguration with
            AVCC := GoSlice.ofList [frame]
            Raw := frame.sliceFrom 2
            FLV := GoSlice.ofList [adcflv1, frame, adcflv2] } } } := by
  have hnot : ¬ frame.len < 2 := by
    have : 3 < frame.toList.length := by
      by_contra hc
      have : frame.toList.get? 3 = none := List.get?_eq_none.mpr (by omega)
      rw [GoSlice.get?] at h3
      rw [this] at h3
      cases h3
    simp only [GoSlice.len]; omega
  simp only [List.get?_eq_getElem?] at hfreq
  simp [AAC.WriteAVCC, AVCCFrame.IsSequence, h1, h2, h3, hnot, hfreq]

/-! ## Lemmas on the capacity of the FLV header buffer -/

theorem GoSlice.toList_mk {α : Type} (elems spare : List α) :
    (GoSlice.mk elems spare).toList = elems := rfl

theorem GoSlice.spareList_mk {α : Type} (elems spare : List α) :
    (GoSlice.mk elems spare).spareList = spare := rfl

theorem Buffer.Malloc_within (b : Bytes) (count : Nat) (h : b.len + count ≤ b.cap) :
    (Buffer.Malloc b count).len = b.len + count ∧ (Buffer.Malloc b count).cap = b.cap := by
  have hnot : ¬ b.len + count > b.cap := by omega
  simp only [GoSlice.len, GoSlice.cap] at h
  unfold Buffer.Malloc
  rw [if_neg hnot]
  simp only [GoSlice.len, GoSlice.cap, GoSlice.toList_mk, GoSlice.spareList_mk,
    List.length_append, List.length_take, List.length_drop]
  omega

theorem Buffer.fill_len_cap (b : Bytes) (bytes : List Nat) (h : bytes.length ≤ b.len) :
    (Buffer.fill b bytes).len = b.len ∧ (Buffer.fill b bytes).cap = b.cap := by
  simp only [GoSlice.len] at h
  simp only [Buffer.fill, GoSlice.len, GoSlice.cap, GoSlice.toList_mk, GoSlice.spareList_mk,
    List.length_append, List.length_take]
  omega

/-- A write of `n` bytes within capacity adds `n` to the length and keeps the
capacity. -/
theorem Buffer.write_within (b : Bytes) (bytes : List Nat) (h : b.len + bytes.length ≤ b.cap) :
    (Buffer.fill (Buffer.Malloc b bytes.length) bytes).len = b.len + bytes.length
    ∧ (Buffer.fill (Buffer.Malloc b bytes.length) bytes).cap = b.cap := by
  obtain ⟨h1, h2⟩ := Buffer.Malloc_within b bytes.length h
  obtain ⟨h3, h4⟩ := Buffer.fill_len_cap (Buffer.Malloc b bytes.length) bytes (by omega)
  exact ⟨by rw [h3, h1], by rw [h4, h2]⟩

theorem PutBE_length (n num : Nat) : (PutBE n num).length = n := by
  simp [PutBE]

theorem AVFrame.flvHeaderBuffer_cap (av : AVFrame) (b : Bytes)
    (h : av.flvHeaderBuffer = some b) : b.len = 0 ∧ b.cap = 15 := by
  unfold AVFrame.flvHeaderBuffer at h
  split at h
  · split at h
    · rename_i flv0 _
      split at h
      · rename_i hcap
        cases flv0 with
        | nil => simp [GoSlice.cap, GoSlice.toList, GoSlice.spareList] at hcap
        | mk elems spare =>
          simp only [GoSlice.sliceTo, Option.some.injEq] at h
          subst h
          simp only [GoSlice.cap, GoSlice.toList, GoSlice.spareList] at hcap
          simp [GoSlice.len, GoSlice.cap, GoSlice.toList, GoSlice.spareList, hcap]
      · cases h
    · cases h
  · cases h

/-- The FLV list that `FillFLV` leaves on an empty one starts with a header
buffer of capacity 15. -/
theorem AVFrame.FillFLV_header_cap (av : AVFrame) (t ts : Nat) (h : av.FLV.len = 0) :
    ∃ header rest spare, (av.FillFLV t ts).FLV = GoSlice.mk (header :: rest) spare
      ∧ header.cap = 15 := by
  have hinit : ∀ o : Option Bytes, (∀ x, o = some x → x.len = 0 ∧ x.cap = 15) →
      (match o with
        | some bytes => bytes
        | none => GoSlice.mk [] (List.replicate 15 0)).len = 0
      ∧ (match o with
        | some bytes => bytes
        | none => GoSlice.mk [] (List.replicate 15 0)).cap = 15 := by
    intro o ho
    cases o with
    | none => exact ⟨rfl, rfl⟩
    | some x => exact ho x rfl
  obtain ⟨hl0, hc0⟩ := hinit av.flvHeaderBuffer (AVFrame.flvHeaderBuffer_cap av)
  have hstep : ∀ (b : Bytes) (bytes : List Nat) (n : Nat), b.len = n → b.cap = 15 →
      n + bytes.length ≤ 15 →
      (Buffer.fill (Buffer.Malloc b bytes.length) bytes).len = n + bytes.length
      ∧ (Buffer.fill (Buffer.Malloc b bytes.length) bytes).cap = 15 := by
    intro b bytes n hn hc hle
    obtain ⟨h1, h2⟩ := Buffer.write_within b bytes (by rw [hn, hc]; exact hle)
    exact ⟨by rw [h1, hn], by rw [h2, hc]⟩
  have hbyte : ∀ (b : Bytes) (v n : Nat), b.len = n → b.cap = 15 → n + 1 ≤ 15 →
      (Buffer.WriteByte b v).len = n + 1 ∧ (Buffer.WriteByte b v).cap = 15 := by
    intro b v n hn hc hle
    exact hstep b [v] n hn hc hle
  have h24 : ∀ (b : Bytes) (v n : Nat), b.len = n → b.cap = 15 → n + 3 ≤ 15 →
      (Buffer.WriteUint24 b v).len = n + 3 ∧ (Buffer.WriteUint24 b v).cap = 15 := by
    intro b v n hn hc hle
    have := hstep b (PutBE 3 v) n hn hc (by rw [PutBE_length]; exact hle)
    rw [PutBE_length] at this
    exact this
  have h32 : ∀ (b : Bytes) (v n : Nat), b.len = n → b.cap = 15 → n + 4 ≤ 15 →
      (Buffer.fill (Buffer.Malloc b 4) (PutBE 4 v)).len = n + 4
      ∧ (Buffer.fill (Buffer.Malloc b 4) (PutBE 4 v)).cap = 15 := by
    intro b v n hn hc hle
    have := hstep b (PutBE 4 v) n hn hc (by rw [PutBE_length]; exact hle)
    rw [PutBE_length] at this
    exact this
  obtain ⟨l1, c1⟩ := hbyte _ t 0 hl0 hc0 (by omega)
  obtain ⟨l2, c2⟩ := h24 _ (SizeOfBuffers av.AVCC % 2 ^ 32) _ l1 c1 (by omega)
  obtain ⟨l3, c3⟩ := h24 _ ts _ l2 c2 (by omega)
  obtain ⟨l4, c4⟩ := hbyte _ ((ts >>> 24) % 256) _ l3 c3 (by omega)
  obtain ⟨l5, c5⟩ := h24 _ 0 _ l4 c4 (by omega)
  obtain ⟨l6, c6⟩ := h32 _ (SizeOfBuffers av.AVCC + 11) _ l5 c5 (by omega)
  have happ : ∀ (s : Buffers) (x : Bytes), s.len = 0 →
      ∃ spare, s.append [x] = GoSlice.mk [x] spare := by
    intro s x hs
    cases s with
    | nil => exact ⟨[], rfl⟩
    | mk elems spare =>
      have he : elems = [] := by simpa [GoSlice.len, GoSlice.toList] using hs
      subst he
      simp only [GoSlice.append]
      split
      · exact ⟨_, rfl⟩
      · exact ⟨_, rfl⟩
  have happ2 : ∀ (x : Bytes) (xs sp ys : List Bytes),
      ∃ rest spare, (GoSlice.mk (x :: xs) sp).append ys = GoSlice.mk (x :: rest) spare := by
    intro x xs sp ys
    cases ys with
    | nil => exact ⟨xs, sp, rfl⟩
    | cons y ys =>
      simp only [GoSlice.append]
      split
      · exact ⟨_, _, rfl⟩
      · exact ⟨_, _, rfl⟩
  simp only [AVFrame.FillFLV]
  obtain ⟨sp1, e1⟩ := happ av.FLV _ h
  rw [e1]
  obtain ⟨r2, sp2, e2⟩ := happ2 _ [] sp1 av.AVCC.toList
  rw [e2]
  obtain ⟨r3, sp3, e3⟩ := happ2 _ r2 sp2 [_]
  rw [e3]
  refine ⟨_, r3, sp3, rfl, ?_⟩
  simp only [GoSlice.cap, GoSlice.toList_mk, GoSlice.spareList_mk, List.length_append,
    List.length_take, List.length_drop]
  simp only [GoSlice.len, GoSlice.cap] at l5 l6 c6
  omega

theorem AVFrame.Reset_FLV (av : AVFrame) :
    av.Reset.FLV = if av.FLV.isNil = false then av.FLV.sliceTo 0 else av.FLV := by
  unfold AVFrame.Reset
  cases h1 : av.FLV.isNil <;> cases h2 : av.AVCC.isNil <;> simp [h1, h2]

/-! ## Lemmas on `Audio.WriteADTS` -/

set_option maxRecDepth 100000 in
theorem adts_bits : ∀ p0 < 4, ∀ sr < 16, ∀ ch < 8,
    ((((((p0 + 1) % 256) <<< 3) % 256) ||| ((sr &&& 0xe) >>> 1)) &&& 0xF8) >>> 3 = (p0 + 1) % 256
    ∧ ((((((sr &&& 0x1) <<< 7) % 256) ||| ((ch <<< 3) % 256)) >>> 3) &&& 0x0F) = ch
    ∧ ((((((((p0 + 1) % 256) <<< 3) % 256) ||| ((sr &&& 0xe) >>> 1)) &&& 0x07) <<< 1)
        ||| ((((((sr &&& 0x1) <<< 7) % 256) ||| ((ch <<< 3) % 256))) >>> 7)) = sr := by
  decide

theorem ADTS.sampleRate_lt (adts2 : Nat) : ADTS.sampleRate adts2 < 16 := by
  have : adts2 &&& 0x3c ≤ 0x3c := Nat.and_le_right
  unfold ADTS.sampleRate
  rw [Nat.shiftRight_eq_div_pow]; omega

theorem ADTS.channel_lt (adts2 adts3 : Nat) : ADTS.channel adts2 adts3 < 8 := by
  have h1 : adts2 &&& 0x1 ≤ 0x1 := Nat.and_le_right
  have h2 : adts3 &&& 0xc0 ≤ 0xc0 := Nat.and_le_right
  have ha : ((adts2 &&& 0x1) <<< 2) % 256 < 2 ^ 3 := by
    rw [Nat.shiftLeft_eq]; omega
  have hb : (adts3 &&& 0xc0) >>> 6 < 2 ^ 3 := by
    rw [Nat.shiftRight_eq_div_pow]; omega
  exact Nat.or_lt_two_pow ha hb

/-- The configuration bytes of `WriteADTS` decode, by the formulas of
`AAC.WriteAVCC`, to the profile, the channels and the sampling index. -/
theorem ADTS.config_decodes (adts2 adts3 : Nat) :
    (ADTS.config1 adts2 &&& 0xF8) >>> 3 = ADTS.profile adts2
    ∧ (ADTS.config2 adts2 adts3 >>> 3) &&& 0x0F = ADTS.channel adts2 adts3
    ∧ ((ADTS.config1 adts2 &&& 0x07) <<< 1) ||| (ADTS.config2 adts2 adts3 >>> 7)
        = ADTS.sampleRate adts2 := by
  have hp : (adts2 &&& 0xc0) >>> 6 < 4 := by
    have : adts2 &&& 0xc0 ≤ 0xc0 := Nat.and_le_right
    rw [Nat.shiftRight_eq_div_pow]; omega
  exact adts_bits _ hp _ (ADTS.sampleRate_lt adts2) _ (ADTS.channel_lt adts2 adts3)

/-- The run of `Audio.WriteADTS` on a header of at least four bytes: the
configuration is built and installed and `Attach` is called. -/
theorem Audio.WriteADTS_run (w : World) (adts : Bytes) (adts2 adts3 : Nat)
    (h2 : adts.get? 2 = some adts2) (h3 : adts.get? 3 = some adts3) :
    ∃ freq, SamplingFrequencies.get? (ADTS.sampleRate adts2) = some freq ∧ freq < 2 ^ 32
      ∧ Audio.WriteADTS w adts = Audio.Attach
        { w with track := { w.track with
            Profile := ADTS.profile adts2
            SampleRate := freq % 2 ^ 32
            Channels := ADTS.channel adts2 adts3
            DecoderConfiguration :=
              { PayloadType := 97
                AVCC := GoSlice.ofList
                  [GoSlice.ofList [0xAF, 0x00, ADTS.config1 adts2, ADTS.config2 adts2 adts3]]
                Raw := GoSlice.mk [ADTS.config1 adts2, ADTS.config2 adts2 adts3] []
                FLV := GoSlice.ofList [adcflv1,
                  GoSlice.ofList [0xAF, 0x00, ADTS.config1 adts2, ADTS.config2 adts2 adts3],
                  adcflv2]
                Seq := 0 } } } := by
  obtain ⟨freq, hf, hlt⟩ := SamplingFrequencies_get _ (ADTS.sampleRate_lt adts2)
  refine ⟨freq, hf, hlt, ?_⟩
  unfold ADTS.sampleRate at hf
  simp only [Audio.WriteADTS, h2, h3, hf]
  rfl

/-! ## Lemmas on `Config` -/

theorem Config.get?_set_eq (c : Config) (k : String) (v : AnyValue) :
    (c.set k v).get? k = some v := by
  match c with
  | .empty => simp [Config.set, Config.get?]
  | .entry k0 v0 rest =>
    have ih := Config.get?_set_eq rest k v
    simp only [Config.set]
    split
    · simp [Config.get?]
    · rename_i h0
      simp [Config.get?, h0, ih]

theorem Config.get?_set_ne (c : Config) (k k' : String) (v : AnyValue) (h : k' ≠ k) :
    (c.set k' v).get? k = c.get? k := by
  match c with
  | .empty => simp [Config.set, Config.get?, h]
  | .entry k0 v0 rest =>
    have ih := Config.get?_set_ne rest k k' v h
    simp only [Config.set]
    split
    · rename_i h0; subst h0; simp [Config.get?, h]
    · simp [Config.get?, ih]

theorem Config.get?_eq_none_of_not_mem (c : Config) (k : String) (h : k ∉ c.keys) :
    c.get? k = none := by
  match c with
  | .empty => rfl
  | .entry k0 v0 rest =>
    simp only [Config.keys, List.mem_cons, not_or] at h
    have ih := Config.get?_eq_none_of_not_mem rest k h.2
    simp [Config.get?, Ne.symm h.1, ih]

theorem Config.not_mem_keys_of_get? (c : Config) (k : String) (h : c.get? k = none) :
    k ∉ c.keys := by
  match c with
  | .empty => simp [Config.keys]
  | .entry k0 v0 rest =>
    simp only [Config.get?] at h
    split at h
    · cases h
    · rename_i h0
      have ih := Config.not_mem_keys_of_get? rest k h
      simp only [Config.keys, List.mem_cons, not_or]
      exact ⟨fun e => h0 e.symm, ih⟩

/-- One entry of the source in `Assign`, in the order of the source: the switch
on the type of `config[k]`, and inside it the switch on the type of `v`. -/
theorem Config.Assign_entry (config : Config) (k : String) (v : AnyValue) (rest : Config) :
    Config.Assign config (.entry k v rest) = Config.Assign
      (match config.get? k with
      | some (.config m) =>
        match v with
        | .config vv => config.set k (.config (Config.Assign m vv))
        | .map vv => config.set k (.config (Config.Assign m vv))
        | .other _ => config
      | _ => config.set k v) rest := by
  cases v <;> simp only [Config.Assign] <;> split <;> rfl

/-- One entry of the source in `Merge`: an absent key is set, a present key is
skipped; the branch under a nested `Config` is never reached. -/
theorem Config.Merge_entry (config : Config) (k : String) (v : AnyValue) (rest : Config) :
    Config.Merge config (.entry k v rest)
      = match config.get? k with
        | none => Config.Merge (config.set k v) rest
        | some _ => Config.Merge config rest := by
  cases v <;> simp only [Config.Merge] <;> cases h : config.get? k <;> rfl

/-- `Assign` leaves alone the keys that the source does not have. -/
theorem Config.get?_Assign_of_not_mem (source : Config) :
    ∀ (config : Config) (k : String), k ∉ source.keys →
      (Config.Assign config source).get? k = config.get? k := by
  match source with
  | .empty => intro config k _; rfl
  | .entry k0 v rest =>
    intro config k hk
    have ih := Config.get?_Assign_of_not_mem rest
    simp only [Config.keys, List.mem_cons, not_or] at hk
    rw [Config.Assign_entry, ih _ k hk.2]
    split
    · split
      · exact Config.get?_set_ne _ _ _ _ (Ne.symm hk.1)
      · exact Config.get?_set_ne _ _ _ _ (Ne.symm hk.1)
      · rfl
    · exact Config.get?_set_ne _ _ _ _ (Ne.symm hk.1)

/-- What one entry of the source does to `config` in `Assign`. -/
theorem Config.Assign_step_get?_ne (config : Config) (k0 k : String) (v : AnyValue)
    (h : k0 ≠ k) :
    (match config.get? k0 with
      | some (.config m) =>
        match v with
        | .config vv => config.set k0 (.config (Config.Assign m vv))
        | .map vv => config.set k0 (.config (Config.Assign m vv))
        | .other _ => config
      | _ => config.set k0 v).get? k = config.get? k := by
  split
  · split
    · exact Config.get?_set_ne _ _ _ _ h
    · exact Config.get?_set_ne _ _ _ _ h
    · rfl
  · exact Config.get?_set_ne _ _ _ _ h

/-- A value of the source that is not a map replaces a value of `config` that is
not a nested `Config`. -/
theorem Config.get?_Assign_other (source : Config) :
    ∀ (config : Config) (k : String) (x : Int), source.keys.Nodup →
      source.get? k = some (.other x) → (∀ m, config.get? k ≠ some (.config m)) →
      (Config.Assign config source).get? k = some (.other x) := by
  match source with
  | .empty => intro config k x _ h; simp [Config.get?] at h
  | .entry k0 v rest =>
    intro config k x hnd hs hc
    have ih := Config.get?_Assign_other rest
    simp only [Config.keys, List.nodup_cons] at hnd
    rw [Config.Assign_entry]
    by_cases hk : k0 = k
    · subst hk
      simp only [Config.get?, if_true, Option.some.injEq] at hs
      subst hs
      rw [Config.get?_Assign_of_not_mem rest _ k0 hnd.1]
      split
      · rename_i m hm
        exact absurd hm (hc m)
      · exact Config.get?_set_eq _ _ _
    · simp only [Config.get?, if_neg hk] at hs
      apply ih _ k x hnd.2 hs
      intro m
      rw [Config.Assign_step_get?_ne config k0 k v hk]
      exact hc m

/-- A value of the source that is not a map leaves a nested `Config` of
`config` in place. -/
theorem Config.get?_Assign_nested (source : Config) :
    ∀ (config : Config) (k : String) (x : Int) (m : Config), source.keys.Nodup →
      source.get? k = some (.other x) → config.get? k = some (.config m) →
      (Config.Assign config source).get? k = some (.config m) := by
  match source with
  | .empty => intro config k x m _ h; simp [Config.get?] at h
  | .entry k0 v rest =>
    intro config k x m hnd hs hc
    have ih := Config.get?_Assign_nested rest
    simp only [Config.keys, List.nodup_cons] at hnd
    rw [Config.Assign_entry]
    by_cases hk : k0 = k
    · subst hk
      simp only [Config.get?, if_true, Option.some.injEq] at hs
      subst hs
      rw [Config.get?_Assign_of_not_mem rest _ k0 hnd.1, hc]
      exact hc
    · simp only [Config.get?, if_neg hk] at hs
      apply ih _ k x m hnd.2 hs
      rw [Config.Assign_step_get?_ne config k0 k v hk]
      exact hc

theorem AnyValue.eq_other_of_isMap (v : AnyValue) (h : v.isMap = false) :
    ∃ x, v = AnyValue.other x := by
  cases v with
  | other x => exact ⟨x, rfl⟩
  | config m => cases h
  | map m => cases h

/-- `Merge` returns, and a key reads in the result what it read in `config`, or,
when `config` did not have it, what it reads in the source. -/
theorem Config.Merge_get? (source : Config) :
    ∀ config : Config, ∃ merged, Config.Merge config source = some merged
      ∧ ∀ k, merged.get? k
          = match config.get? k with
            | some v => some v
            | none => source.get? k := by
  match source with
  | .empty =>
    intro config
    refine ⟨config, rfl, ?_⟩
    intro k
    cases config.get? k <;> rfl
  | .entry k0 v rest =>
    intro config
    have ih := Config.Merge_get? rest
    rw [Config.Merge_entry]
    cases h0 : config.get? k0 with
    | none =>
      obtain ⟨merged, hm, hg⟩ := ih (config.set k0 v)
      refine ⟨merged, hm, ?_⟩
      intro k
      rw [hg k]
      by_cases hk : k0 = k
      · subst hk
        simp [Config.get?_set_eq, h0, Config.get?]
      · rw [Config.get?_set_ne _ _ _ _ hk]
        simp [Config.get?, hk]
    | some v0 =>
      obtain ⟨merged, hm, hg⟩ := ih config
      refine ⟨merged, hm, ?_⟩
      intro k
      rw [hg k]
      by_cases hk : k0 = k
      · subst hk
        simp [h0]
      · simp [Config.get?, hk]

/-! ## The claims -/

/-- C1: for a frame whose FLV list is empty, whose AVCC buffers hold `L` bytes
in all, `FillFLV t ts` leaves FLV buffers whose concatenation is the eleven
header bytes `[t, L>>16, L>>8, L, ts>>16, ts>>8, ts, ts>>24, 0, 0, 0]` (each
masked to a byte), then the AVCC bytes, then the four bytes of `L + 11`
big-endian; when `L + 11` fits in 32 bits these four bytes decode to
`L + 11`. -/
theorem FillFLV_tag_layout (av : AVFrame) (t ts : Nat) (h : av.FLV.len = 0) :
    Buffers.bytes (av.FillFLV t ts).FLV
      = [t, ((Buffers.bytes av.AVCC).length >>> 16) &&& 0xFF,
          ((Buffers.bytes av.AVCC).length >>> 8) &&& 0xFF,
          (Buffers.bytes av.AVCC).length &&& 0xFF,
          (ts >>> 16) &&& 0xFF, (ts >>> 8) &&& 0xFF, ts &&& 0xFF, (ts >>> 24) &&& 0xFF,
          0, 0, 0]
        ++ Buffers.bytes av.AVCC
        ++ [(((Buffers.bytes av.AVCC).length + 11) >>> 24) &&& 0xFF,
            (((Buffers.bytes av.AVCC).length + 11) >>> 16) &&& 0xFF,
            (((Buffers.bytes av.AVCC).length + 11) >>> 8) &&& 0xFF,
            ((Buffers.bytes av.AVCC).length + 11) &&& 0xFF]
    ∧ ((Buffers.bytes av.AVCC).length + 11 < 2 ^ 32 →
        ((((Buffers.bytes av.AVCC).length + 11) >>> 24) &&& 0xFF) * 2 ^ 24
          + ((((Buffers.bytes av.AVCC).length + 11) >>> 16) &&& 0xFF) * 2 ^ 16
          + ((((Buffers.bytes av.AVCC).length + 11) >>> 8) &&& 0xFF) * 2 ^ 8
          + (((Buffers.bytes av.AVCC).length + 11) &&& 0xFF)
        = (Buffers.bytes av.AVCC).length + 11) := by
  constructor
  · have hl := AVFrame.FillFLV_FLV_toList av t ts
    have h0 : Buffers.bytes av.FLV = [] := by
      simp [Buffers.bytes, GoSlice.toList_eq_nil_of_len _ h]
    have e16 := uint32_shift_byte (SizeOfBuffers av.AVCC) 16 (by omega)
    have e8 := uint32_shift_byte (SizeOfBuffers av.AVCC) 8 (by omega)
    have e0 : (SizeOfBuffers av.AVCC % 2 ^ 32) % 256 = SizeOfBuffers av.AVCC % 256 := by omega
    rw [h0, e16, e8, e0, SizeOfBuffers_eq] at hl
    simp only [byte_and_eq_mod]
    simpa [Buffers.bytes] using hl
  · intro hlt
    simp only [byte_and_eq_mod, Nat.shiftRight_eq_div_pow]
    omega

/-- Witness of C1: the tag built for `sampleFrame` with type 8 at timestamp
`0x01020304`. -/
theorem FillFLV_tag_layout_witness :
    sampleFrame.FLV.len = 0
    ∧ Buffers.bytes (sampleFrame.FillFLV 8 0x01020304).FLV
        = [8, 0, 0, 5, 2, 3, 4, 1, 0, 0, 0, 0xAF, 1, 9, 8, 7, 0, 0, 0, 16] :=
  ⟨by decide, by
    have h := (FillFLV_tag_layout sampleFrame 8 0x01020304 (by decide)).1
    rw [h]
    decide⟩

/-- C2: for a sequence-header frame (byte 1 is 0) of at least 4 bytes, so that
the configuration bytes `c1 = frame[2]` and `c2 = frame[3]` exist,
`AAC.WriteAVCC` leaves
`Profile = (c1 & 0xF8) >> 3`, `Channels = (c2 >> 3) & 0x0F` and
`SampleRate = SamplingFrequencies[((c1 & 0x07) << 1) | (c2 >> 7)]`, the index
being below 16, the length of the table; bytes `0x12 0x10` give profile 2,
sample rate 44100 and 2 channels. -/
theorem WriteAVCC_sequence_header (env : Env) (w : World) (ts : Nat) (frame : Bytes)
    (c1 c2 : Nat) (h1 : frame.get? 1 = some 0)
    (h2 : frame.get? 2 = some c1) (h3 : frame.get? 3 = some c2) (hc2 : c2 < 256) :
    (AAC.WriteAVCC env w ts frame).world.track.Profile = (c1 &&& 0xF8) >>> 3
    ∧ (AAC.WriteAVCC env w ts frame).world.track.Channels = (c2 >>> 3) &&& 0x0F
    ∧ (((c1 &&& 0x07) <<< 1) ||| (c2 >>> 7)) < SamplingFrequencies.length
    ∧ SamplingFrequencies.length = 16
    ∧ SamplingFrequencies.get? (((c1 &&& 0x07) <<< 1) ||| (c2 >>> 7))
        = some (AAC.WriteAVCC env w ts frame).world.track.SampleRate
    ∧ (c1 = 0x12 → c2 = 0x10 →
        (AAC.WriteAVCC env w ts frame).world.track.Profile = 2
        ∧ (AAC.WriteAVCC env w ts frame).world.track.SampleRate = 44100
        ∧ (AAC.WriteAVCC env w ts frame).world.track.Channels = 2) := by
  have hmod : ((c1 &&& 0x7) <<< 1) % 256 = (c1 &&& 0x07) <<< 1 := by
    have h1 : c1 &&& 0x7 ≤ 7 := Nat.and_le_right
    rw [Nat.shiftLeft_eq]; omega
  have hidx := aac_index_lt c1 c2 hc2
  obtain ⟨freq, hfreq, hfreq32⟩ := SamplingFrequencies_get _ hidx
  have hrun := WriteAVCC_run_of_header env w ts frame c1 c2 freq h1 h2 h3 hfreq
  rw [hmod] at hidx hfreq
  have hsr : freq % 2 ^ 32 = freq := Nat.mod_eq_of_lt hfreq32
  rw [hrun, Audio.Attach_track]
  refine ⟨rfl, rfl, ?_, rfl, ?_, ?_⟩
  · simpa [SamplingFrequencies] using hidx
  · rw [hfreq]
    exact congrArg some hsr.symm
  · intro e1 e2
    subst e1 e2
    have h4 : SamplingFrequencies.get? 4 = some freq := hfreq
    have : freq = 44100 := by
      simpa [SamplingFrequencies] using h4.symm
    subst this
    exact ⟨rfl, rfl, rfl⟩

/-- Witness of C2: the sequence header `AF 00 12 10` written to a new track. -/
theorem WriteAVCC_sequence_header_witness :
    (AAC.WriteAVCC sampleEnv sampleWorld 0 sampleSequenceHeader).world.track.Profile = 2
    ∧ (AAC.WriteAVCC sampleEnv sampleWorld 0 sampleSequenceHeader).world.track.SampleRate = 44100
    ∧ (AAC.WriteAVCC sampleEnv sampleWorld 0 sampleSequenceHeader).world.track.Channels = 2 :=
  (WriteAVCC_sequence_header sampleEnv sampleWorld 0 sampleSequenceHeader 0x12 0x10
    (by decide) (by decide) (by decide) (by decide)).2.2.2.2.2 rfl rfl

/-- C3, at the failing input: a sequence header of two bytes, `AF 00`, is not
rejected. `AAC.WriteAVCC` replaces `DecoderConfiguration.AVCC` by the frame and
then panics on `frame[2]`; nothing is reported to the stream. A frame of fewer
than two bytes panics in `IsSequence`, on `frame[1]`. -/
theorem WriteAVCC_short_sequence_header_panics (env : Env) (w : World) (ts : Nat) :
    AAC.WriteAVCC env w ts (GoSlice.ofList [0xAF, 0x00])
      = Outcome.panic { w with track := { w.track with
          DecoderConfiguration := { w.track.DecoderConfiguration with
            AVCC := GoSlice.ofList [GoSlice.ofList [0xAF, 0x00]] } } }
    ∧ AAC.WriteAVCC env w ts (GoSlice.ofList [0xAF, 0x00, 0x12])
      = Outcome.panic { w with track := { w.track with
          DecoderConfiguration := { w.track.DecoderConfiguration with
            AVCC := GoSlice.ofList [GoSlice.ofList [0xAF, 0x00, 0x12]] } } }
    ∧ AAC.WriteAVCC env w ts (GoSlice.ofList [0xAF]) = Outcome.panic w
    ∧ AAC.WriteAVCC env w ts (GoSlice.ofList []) = Outcome.panic w
    ∧ AAC.WriteAVCC env w ts GoSlice.nil = Outcome.panic w := by
  refine ⟨?_, ?_, ?_, ?_, ?_⟩ <;>
    simp [AAC.WriteAVCC, AVCCFrame.IsSequence, GoSlice.get?, GoSlice.toList, GoSlice.ofList,
      GoSlice.len]

/-- C4: for a frame whose AVCC list is empty, with AVCC or FLV output enabled,
the AVCC-completion step of `Audio.Flush` leaves AVCC buffers whose
concatenation is `AVCCHead` followed by the raw units in order, and leaves the
raw units as they were. -/
theorem completeAVCC_head_then_raw (g : Engine) (AVCCHead : Bytes) (value : AVFrame)
    (hlen : value.AVCC.len = 0) (hflag : g.EnableAVCC = true ∨ g.EnableFLV = true) :
    Buffers.bytes (Audio.completeAVCC g AVCCHead value).AVCC
      = AVCCHead.toList ++ (value.Raw.toList.map GoSlice.toList).flatten
    ∧ (Audio.completeAVCC g AVCCHead value).Raw = value.Raw := by
  unfold Audio.completeAVCC
  rw [if_pos ⟨hlen, hflag⟩, AVFrame.foldl_AppendAVCC]
  constructor
  · simp [Buffers.bytes, GoSlice.foldl_append_toList, AVFrame.AppendAVCC,
      GoSlice.append_toList, GoSlice.toList_eq_nil_of_len _ hlen]
  · rfl

/-- Witness of C4: `sampleFrame` after `Reset`, completed with the AAC head. -/
theorem completeAVCC_head_then_raw_witness :
    Buffers.bytes (Audio.completeAVCC sampleEnv.Global (GoSlice.ofList [0xAF, 1])
        { sampleFrame.Reset with Raw := GoSlice.ofList [GoSlice.ofList [9, 8], GoSlice.ofList [7]] }).AVCC
      = [0xAF, 1, 9, 8, 7] :=
  (completeAVCC_head_then_raw sampleEnv.Global (GoSlice.ofList [0xAF, 1])
    { sampleFrame.Reset with Raw := GoSlice.ofList [GoSlice.ofList [9, 8], GoSlice.ofList [7]] }
    (by decide) (Or.inl rfl)).1

/-- C5: whatever the frame, the head and the flags, running the AVCC and FLV
completion steps of `Audio.Flush` on the frame they produced changes nothing:
the frame, and so its AVCC and FLV bytes, is the same after two runs as after
one. -/
theorem completion_idempotent (g : Engine) (AVCCHead : Bytes) (value : AVFrame) :
    Audio.completeFLV g (Audio.completeAVCC g AVCCHead
        (Audio.completeFLV g (Audio.completeAVCC g AVCCHead value)))
      = Audio.completeFLV g (Audio.completeAVCC g AVCCHead value)
    ∧ Buffers.bytes (Audio.completeFLV g (Audio.completeAVCC g AVCCHead
        (Audio.completeFLV g (Audio.completeAVCC g AVCCHead value)))).AVCC
      = Buffers.bytes (Audio.completeFLV g (Audio.completeAVCC g AVCCHead value)).AVCC
    ∧ Buffers.bytes (Audio.completeFLV g (Audio.completeAVCC g AVCCHead
        (Audio.completeFLV g (Audio.completeAVCC g AVCCHead value)))).FLV
      = Buffers.bytes (Audio.completeFLV g (Audio.completeAVCC g AVCCHead value)).FLV := by
  have hA : Audio.completeAVCC g AVCCHead
      (Audio.completeFLV g (Audio.completeAVCC g AVCCHead value))
      = Audio.completeFLV g (Audio.completeAVCC g AVCCHead value) := by
    apply Audio.completeAVCC_eq_of_not
    rw [Audio.completeFLV_AVCC]
    exact Audio.completeAVCC_post g AVCCHead value
  have hF : Audio.completeFLV g (Audio.completeFLV g (Audio.completeAVCC g AVCCHead value))
      = Audio.completeFLV g (Audio.completeAVCC g AVCCHead value) :=
    Audio.completeFLV_eq_of_not g _ (Audio.completeFLV_post g _)
  rw [hA, hF]
  exact ⟨rfl, rfl, rfl⟩

/-- C6: when the frames `init ++ [last]` go through `AAC.writeRTPFrame` in
order, only `last` carrying the marker, the calls made are: `WriteSlice` for the
payloads of `ParseRTPAAC` of each frame, in arrival order, then
`generateTimestamp`, then one `Flush`, entered with an in-progress frame whose
RTP list is the former one followed by the frames in arrival order, then the
`Media.Flush` it ends with. `Flush` is entered exactly once. -/
theorem writeRTPFrame_flush_once (env : Env) (w : World) (init : List RTPFrame)
    (last : RTPFrame) (hinit : ∀ f ∈ init, f.Marker = false) (hlast : last.Marker = true) :
    ∃ value : AVFrame,
      ((init ++ [last]).foldl (AAC.writeRTPFrame env) w).trace
        = w.trace
          ++ ((init ++ [last]).map fun f =>
              (env.ParseRTPAAC f.Payload).map Event.WriteSlice).flatten
          ++ [Event.GenerateTimestamp, Event.Flush value,
              Event.MediaFlush (Audio.completeFLV env.Global
                (Audio.completeAVCC env.Global w.track.AVCCHead value))]
      ∧ value.RTP.toList = w.track.Value.RTP.toList ++ (init ++ [last])
      ∧ (((init ++ [last]).foldl (AAC.writeRTPFrame env) w).trace.drop
          w.trace.length).countP Event.isFlush = 1 := by
  obtain ⟨h1, h2, h3⟩ := AAC.foldl_writeRTPFrame_no_marker env init w hinit
  obtain ⟨value, hv1, hv2⟩ :=
    AAC.writeRTPFrame_marker env (init.foldl (AAC.writeRTPFrame env) w) last hlast
  have hno : ∀ l : List RTPFrame,
      List.countP Event.isFlush
        (l.map fun f => (env.ParseRTPAAC f.Payload).map Event.WriteSlice).flatten = 0 := by
    intro l
    rw [List.countP_eq_zero]
    intro e he
    simp only [List.mem_flatten, List.mem_map] at he
    obtain ⟨es, ⟨f, _, rfl⟩, he⟩ := he
    simp only [List.mem_map] at he
    obtain ⟨p, _, rfl⟩ := he
    simp [Event.isFlush]
  have htrace : ((init ++ [last]).foldl (AAC.writeRTPFrame env) w).trace
      = w.trace
        ++ (((init ++ [last]).map fun f =>
            (env.ParseRTPAAC f.Payload).map Event.WriteSlice).flatten
        ++ [Event.GenerateTimestamp, Event.Flush value,
            Event.MediaFlush (Audio.completeFLV env.Global
              (Audio.completeAVCC env.Global w.track.AVCCHead value))]) := by
    rw [List.foldl_append, List.foldl_cons, List.foldl_nil, hv1, h1, h3]
    simp
  refine ⟨value, ?_, ?_, ?_⟩
  · rw [htrace]; simp
  · rw [hv2, h2]; simp
  · rw [htrace, List.drop_left, List.countP_append, hno]
    simp [List.countP_cons, Event.isFlush]

/-- Witness of C6: two packets, the second with the marker, on a new track. -/
theorem writeRTPFrame_flush_once_witness :
    sampleRTP1.Marker = false ∧ sampleRTP2.Marker = true
    ∧ ∃ value : AVFrame,
      (([sampleRTP1] ++ [sampleRTP2]).foldl (AAC.writeRTPFrame sampleEnv) sampleWorld).trace
        = sampleWorld.trace
          ++ (([sampleRTP1] ++ [sampleRTP2]).map fun f =>
              (sampleEnv.ParseRTPAAC f.Payload).map Event.WriteSlice).flatten
          ++ [Event.GenerateTimestamp, Event.Flush value,
              Event.MediaFlush (Audio.completeFLV sampleEnv.Global
                (Audio.completeAVCC sampleEnv.Global sampleWorld.track.AVCCHead value))]
      ∧ value.RTP.toList = sampleWorld.track.Value.RTP.toList ++ ([sampleRTP1] ++ [sampleRTP2])
      ∧ ((([sampleRTP1] ++ [sampleRTP2]).foldl (AAC.writeRTPFrame sampleEnv)
          sampleWorld).trace.drop sampleWorld.trace.length).countP Event.isFlush = 1 :=
  ⟨rfl, rfl, writeRTPFrame_flush_once sampleEnv sampleWorld [sampleRTP1] sampleRTP2
    (by intro f hf; simp at hf; subst hf; rfl) rfl⟩

/-- C7: when the in-progress frame has a nil RTP list, RTP output is enabled
and the raw units hold `l < 8192` bytes, the first thing `AAC.Flush` does is to
hand `PacketizeRTP` the payload `[0x00, 0x10, h, w]` followed by the raw units
in order, where `h = (l & 0x1fe0) >> 5` and `w = (l & 0x1f) << 3` are bytes and
the 16-bit big-endian value `h * 256 + w` is `8 * l`, so that its upper 13 bits
are `l`; the first two bytes read big-endian are 16 and the payload has
`l + 4` bytes. -/
theorem Flush_au_header_payload (env : Env) (w : World)
    (hnil : w.track.Value.RTP.isNil = true) (hrtp : env.Global.EnableRTP = true)
    (hl : SizeOfBuffers w.track.Value.Raw < 8192) :
    (∃ rest, (AAC.Flush env w).trace
        = w.trace ++ [Event.Flush w.track.Value,
            Event.PacketizeRTP (AAC.rtpPayload w.track.Value)] ++ rest)
    ∧ (AAC.rtpPayload w.track.Value).toList
        = [0x00, 0x10, (SizeOfBuffers w.track.Value.Raw &&& 0x1fe0) >>> 5,
            (SizeOfBuffers w.track.Value.Raw &&& 0x1f) <<< 3]
          ++ (w.track.Value.Raw.toList.map GoSlice.toList).flatten
    ∧ (SizeOfBuffers w.track.Value.Raw &&& 0x1fe0) >>> 5 < 256
    ∧ (SizeOfBuffers w.track.Value.Raw &&& 0x1f) <<< 3 < 256
    ∧ 0x00 * 256 + 0x10 = 16
    ∧ ((SizeOfBuffers w.track.Value.Raw &&& 0x1fe0) >>> 5) * 256
        + (SizeOfBuffers w.track.Value.Raw &&& 0x1f) <<< 3
        = 8 * SizeOfBuffers w.track.Value.Raw
    ∧ (((SizeOfBuffers w.track.Value.Raw &&& 0x1fe0) >>> 5) * 256
        + (SizeOfBuffers w.track.Value.Raw &&& 0x1f) <<< 3) >>> 3
        = SizeOfBuffers w.track.Value.Raw
    ∧ (AAC.rtpPayload w.track.Value).len = SizeOfBuffers w.track.Value.Raw + 4
    ∧ SizeOfBuffers w.track.Value.Raw
        = ((w.track.Value.Raw.toList.map GoSlice.toList).flatten).length := by
  obtain ⟨hh, hw⟩ := au_header_bits _ hl
  have hm1 : ((SizeOfBuffers w.track.Value.Raw &&& 0x1fe0) >>> 5) % 256
      = (SizeOfBuffers w.track.Value.Raw &&& 0x1fe0) >>> 5 := by
    have : SizeOfBuffers w.track.Value.Raw &&& 0x1fe0 ≤ 0x1fe0 := Nat.and_le_right
    apply Nat.mod_eq_of_lt
    rw [Nat.shiftRight_eq_div_pow]; omega
  have hm2 : ((SizeOfBuffers w.track.Value.Raw &&& 0x1f) <<< 3) % 256
      = (SizeOfBuffers w.track.Value.Raw &&& 0x1f) <<< 3 := by
    have : SizeOfBuffers w.track.Value.Raw &&& 0x1f ≤ 0x1f := Nat.and_le_right
    apply Nat.mod_eq_of_lt
    rw [Nat.shiftLeft_eq]; omega
  have hh' : (SizeOfBuffers w.track.Value.Raw &&& 0x1fe0) >>> 5
      = SizeOfBuffers w.track.Value.Raw / 32 := by
    rw [← hh, hm1]
  have hw' : (SizeOfBuffers w.track.Value.Raw &&& 0x1f) <<< 3
      = (SizeOfBuffers w.track.Value.Raw % 32) * 8 := by
    rw [← hw, hm2]
  have hsize : SizeOfBuffers w.track.Value.Raw
      = ((w.track.Value.Raw.toList.map GoSlice.toList).flatten).length :=
    SizeOfBuffers_eq w.track.Value.Raw
  have hpay : (AAC.rtpPayload w.track.Value).toList
      = [0x00, 0x10, (SizeOfBuffers w.track.Value.Raw &&& 0x1fe0) >>> 5,
          (SizeOfBuffers w.track.Value.Raw &&& 0x1f) <<< 3]
        ++ (w.track.Value.Raw.toList.map GoSlice.toList).flatten := by
    unfold AAC.rtpPayload
    simp only [GoSlice.foldl_appendAll_toList, hm1, hm2]
    simp [GoSlice.set, GoSlice.toList, List.replicate]
  refine ⟨?_, hpay, ?_, ?_, rfl, ?_, ?_, ?_, hsize⟩
  · refine ⟨((Audio.Flush env (Media.PacketizeRTP env (w.emit (Event.Flush w.track.Value))
        (AAC.rtpPayload w.track.Value))).trace.drop (w.trace.length + 2)), ?_⟩
    have hpre : ∀ w0 : World, ∃ r, (Audio.Flush env w0).trace = w0.trace ++ r := by
      intro w0
      unfold Audio.Flush
      simp only [Media.Flush, World.emit, World.setValue]
      split
      · exact ⟨_, by simp [Media.PacketizeRTP, World.emit, World.setValue]; rfl⟩
      · exact ⟨_, rfl⟩
    obtain ⟨r, hr⟩ := hpre (Media.PacketizeRTP env (w.emit (Event.Flush w.track.Value))
        (AAC.rtpPayload w.track.Value))
    have hf : AAC.Flush env w = Audio.Flush env (Media.PacketizeRTP env
        (w.emit (Event.Flush w.track.Value)) (AAC.rtpPayload w.track.Value)) := by
      simp [AAC.Flush, World.emit, hnil, hrtp]
    rw [hf, hr]
    simp [Media.PacketizeRTP, World.emit, World.setValue]
  · rw [hh']; omega
  · rw [hw']; omega
  · rw [hh', hw']; omega
  · rw [hh', hw', Nat.shiftRight_eq_div_pow]; omega
  · show (AAC.rtpPayload w.track.Value).toList.length = _
    rw [hpay, hsize]
    simp

/-- Witness of C7: five raw bytes in two units give the payload
`00 10 00 28 01 02 03 04 05`. -/
theorem Flush_au_header_payload_witness :
    sampleRawWorld.track.Value.RTP.isNil = true ∧ sampleEnv.Global.EnableRTP = true
    ∧ SizeOfBuffers sampleRawWorld.track.Value.Raw < 8192
    ∧ (AAC.rtpPayload sampleRawWorld.track.Value).toList = [0, 16, 0, 40, 1, 2, 3, 4, 5] :=
  ⟨rfl, rfl, by decide, by
    rw [(Flush_au_header_payload sampleEnv sampleRawWorld rfl rfl (by decide)).2.1]
    decide⟩

/-- C8: every `Attach` that `AAC.WriteAVCC` or `Audio.WriteADTS` calls finds the
decoder configuration installed. In `WriteAVCC`, the track passed to `Attach`
has `DecoderConfiguration.AVCC` equal to the one-buffer list of the frame and
`Raw = frame[2:]`, which starts with the two configuration bytes parsed; in
`WriteADTS`, it has the one-buffer list `[AF 00 c1 c2]` and `Raw = [c1, c2]`.
`WriteAVCC` with a frame whose byte 1 is not 0 records no `Attach`. -/
theorem Attach_only_after_configuration (env : Env) (w : World) (ts : Nat)
    (frame adts : Bytes) :
    (∀ a, Event.Attach a ∈ (AAC.WriteAVCC env w ts frame).world.trace.drop w.trace.length →
      a.DecoderConfiguration.AVCC.len ≠ 0
      ∧ a.DecoderConfiguration.AVCC = GoSlice.ofList [frame]
      ∧ a.DecoderConfiguration.Raw = frame.sliceFrom 2
      ∧ ∃ c1 c2, frame.get? 2 = some c1 ∧ frame.get? 3 = some c2
          ∧ a.DecoderConfiguration.Raw.toList.take 2 = [c1, c2]
          ∧ a.Profile = (c1 &&& 0xF8) >>> 3 ∧ a.Channels = (c2 >>> 3) &&& 0x0F)
    ∧ (∀ a, Event.Attach a ∈ (Audio.WriteADTS w adts).world.trace.drop w.trace.length →
      a.DecoderConfiguration.AVCC.len ≠ 0
      ∧ ∃ c1 c2, a.DecoderConfiguration.AVCC = GoSlice.ofList [GoSlice.ofList [0xAF, 0x00, c1, c2]]
          ∧ a.DecoderConfiguration.Raw.toList = [c1, c2])
    ∧ (∀ b, frame.get? 1 = some b → b ≠ 0 →
        ∀ a, Event.Attach a ∉ (AAC.WriteAVCC env w ts frame).world.trace.drop w.trace.length) := by
  refine ⟨?_, ?_, ?_⟩
  · intro a ha
    rcases AAC.WriteAVCC_cases env w ts frame with ⟨r, h1, h2⟩ | ⟨c1, c2, freq, _, h2, h3, hrun⟩
    · rw [h1, List.drop_left] at ha
      have := h2 _ ha
      simp [Event.isAttach] at this
    · rw [hrun] at ha
      have hEq := Audio.Attach_trace _ a _ (by rfl) ha
      subst hEq
      refine ⟨by simp [GoSlice.len, GoSlice.ofList, GoSlice.toList], rfl, rfl,
        c1, c2, h2, h3, ?_, rfl, rfl⟩
      cases frame with
      | nil => simp [GoSlice.get?, GoSlice.toList] at h2
      | mk elems spare =>
        simp only [GoSlice.get?, GoSlice.toList] at h2 h3
        simp only [GoSlice.sliceFrom, GoSlice.toList]
        match elems, h2, h3 with
        | _ :: _ :: x :: y :: rest, h2, h3 =>
          simp at h2 h3
          simp [h2, h3]
  · intro a ha
    rcases Audio.WriteADTS_cases w adts with h | ⟨c1, c2, freq, channel, profile, hrun⟩
    · rw [h] at ha
      simp at ha
    · rw [hrun] at ha
      have hEq := Audio.Attach_trace _ a _ (by rfl) ha
      subst hEq
      exact ⟨by simp [GoSlice.len, GoSlice.ofList, GoSlice.toList], c1, c2, rfl, rfl⟩
  · intro b hb hne a
    rcases AAC.WriteAVCC_cases env w ts frame with ⟨r, h1, h2⟩ | ⟨c1, c2, freq, h1, _, _, _⟩
    · rw [h1, List.drop_left]
      intro ha
      have := h2 _ ha
      simp [Event.isAttach] at this
    · rw [hb] at h1
      exact absurd (Option.some.inj h1) hne

/-- Witness of C8: the sequence header `AF 00 12 10` on a new track records an
`Attach` whose track has the configuration installed. -/
theorem Attach_only_after_configuration_witness :
    Event.Attach (AAC.WriteAVCC sampleEnv sampleWorld 0 sampleSequenceHeader).world.track
        ∈ (AAC.WriteAVCC sampleEnv sampleWorld 0 sampleSequenceHeader).world.trace.drop
            sampleWorld.trace.length
    ∧ (AAC.WriteAVCC sampleEnv sampleWorld 0
        sampleSequenceHeader).world.track.DecoderConfiguration.AVCC
        = GoSlice.ofList [sampleSequenceHeader]
    ∧ (AAC.WriteAVCC sampleEnv sampleWorld 0
        sampleSequenceHeader).world.track.DecoderConfiguration.Raw
        = sampleSequenceHeader.sliceFrom 2 :=
  have hmem : Event.Attach (AAC.WriteAVCC sampleEnv sampleWorld 0 sampleSequenceHeader).world.track
      ∈ (AAC.WriteAVCC sampleEnv sampleWorld 0 sampleSequenceHeader).world.trace.drop
          sampleWorld.trace.length := List.mem_cons_self _ _
  have h := (Attach_only_after_configuration sampleEnv sampleWorld 0 sampleSequenceHeader
    sampleADTS).1 _ hmem
  ⟨hmem, h.2.1, h.2.2.1⟩

/-- C9, at the failing inputs: the configuration sequence is not incremented.
`AAC.WriteAVCC` with the sequence header `AF 00 12 10` leaves
`GetDecConfSeq` as it was, on every track; `Audio.WriteADTS` sets it to 0, so
on a track that has counted three sequence frames it goes from 3 down to 0. -/
theorem decoder_configuration_Seq_not_incremented (env : Env) (w : World) (ts : Nat) :
    Audio.GetDecConfSeq (AAC.WriteAVCC env w ts sampleSequenceHeader).world.track
      = Audio.GetDecConfSeq w.track
    ∧ Audio.GetDecConfSeq (Audio.WriteADTS w sampleADTS).world.track = 0
    ∧ Audio.GetDecConfSeq sampleSeqWorld.track = 3
    ∧ Audio.GetDecConfSeq (Audio.WriteADTS sampleSeqWorld sampleADTS).world.track = 0
    ∧ (AAC.WriteAVCC env w ts sampleSequenceHeader).panicked
        = (Audio.Attach w).panicked := by
  have hseq := WriteAVCC_run_of_header env w ts sampleSequenceHeader 0x12 0x10 44100
    rfl rfl rfl rfl
  have hadts : Audio.WriteADTS w sampleADTS = Audio.Attach
      { w with track := { w.track with
          Profile := 2
          SampleRate := 44100
          Channels := 2
          DecoderConfiguration :=
            { PayloadType := 97
              AVCC := GoSlice.ofList [GoSlice.ofList [0xAF, 0x00, 0x12, 0x10]]
              Raw := (GoSlice.ofList [0xAF, 0x00, 0x12, 0x10]).sliceFrom 2
              FLV := GoSlice.ofList [adcflv1, GoSlice.ofList [0xAF, 0x00, 0x12, 0x10], adcflv2]
              Seq := 0 } } } := rfl
  refine ⟨?_, ?_, rfl, rfl, ?_⟩
  · rw [hseq, Audio.Attach_track]; rfl
  · rw [hadts, Audio.Attach_track]; rfl
  · rw [hseq]
    unfold Audio.Attach
    cases hs : w.track.Stream <;> simp [World.emit, Outcome.panicked, hs]

/-- C10: after `Reset` the FLV and AVCC lists have length 0 and keep their
capacity, the RTP list and the raw-unit list are nil, every other field is as
before, and a second `Reset` changes nothing. -/
theorem Reset_clears_formats (av : AVFrame) :
    av.Reset.FLV.len = 0 ∧ av.Reset.AVCC.len = 0
    ∧ av.Reset.RTP = GoSlice.nil ∧ av.Reset.Raw = GoSlice.nil
    ∧ av.Reset.FLV.cap = av.FLV.cap ∧ av.Reset.AVCC.cap = av.AVCC.cap
    ∧ av.Reset.DeltaTime = av.DeltaTime ∧ av.Reset.AbsTime = av.AbsTime
    ∧ av.Reset.Timestamp = av.Timestamp ∧ av.Reset.Sequence = av.Sequence
    ∧ av.Reset.BytesIn = av.BytesIn ∧ av.Reset.IFrame = av.IFrame
    ∧ av.Reset.PTS = av.PTS ∧ av.Reset.DTS = av.DTS ∧ av.Reset.canRead = av.canRead
    ∧ av.Reset.Reset = av.Reset := by
  obtain ⟨d, a, t, sq, bi, ifr, pts, dts, flv, avcc, rtp, raw, cr⟩ := av
  cases flv <;> cases avcc <;>
    simp [AVFrame.Reset, GoSlice.isNil, GoSlice.sliceTo, GoSlice.len, GoSlice.cap,
      GoSlice.toList, GoSlice.spareList]

/-- C11: on a frame of at least two bytes `IsIDR`, `IsSequence`, `VideoCodecID`
and `AudioCodecID` read in range and return `frame[0] >> 4` is 1 or 4,
`frame[1] == 0`, `frame[0] & 0x0F` and `frame[0] >> 4`; `CTS` reads in range
exactly when the frame has at least five bytes. -/
theorem AVCCFrame_accessors_in_range (frame : Bytes) (hlen : 2 ≤ frame.len) :
    ∃ b0 b1, frame.get? 0 = some b0 ∧ frame.get? 1 = some b1
      ∧ AVCCFrame.IsIDR frame = some (b0 >>> 4 == 1 || b0 >>> 4 == 4)
      ∧ AVCCFrame.IsSequence frame = some (b1 == 0)
      ∧ AVCCFrame.VideoCodecID frame = some (b0 &&& 0x0F)
      ∧ AVCCFrame.AudioCodecID frame = some (b0 >>> 4)
      ∧ ((AVCCFrame.CTS frame).isSome = true ↔ 5 ≤ frame.len) := by
  cases frame with
  | nil => simp [GoSlice.len, GoSlice.toList] at hlen
  | mk elems spare =>
    match elems, hlen with
    | [b0, b1], _ =>
      exact ⟨b0, b1, rfl, rfl, rfl, rfl, rfl, rfl, by
        simp [AVCCFrame.CTS, GoSlice.get?, GoSlice.toList, GoSlice.len]⟩
    | [b0, b1, b2], _ =>
      exact ⟨b0, b1, rfl, rfl, rfl, rfl, rfl, rfl, by
        simp [AVCCFrame.CTS, GoSlice.get?, GoSlice.toList, GoSlice.len]⟩
    | [b0, b1, b2, b3], _ =>
      exact ⟨b0, b1, rfl, rfl, rfl, rfl, rfl, rfl, by
        simp [AVCCFrame.CTS, GoSlice.get?, GoSlice.toList, GoSlice.len]⟩
    | b0 :: b1 :: b2 :: b3 :: b4 :: rest, _ =>
      exact ⟨b0, b1, rfl, rfl, rfl, rfl, rfl, rfl, by
        simp [AVCCFrame.CTS, GoSlice.get?, GoSlice.toList, GoSlice.len]⟩

/-- Witness of C11: the accessors on the two-byte frame `AF 01`. -/
theorem AVCCFrame_accessors_in_range_witness :
    2 ≤ (GoSlice.ofList [0xAF, 0x01] : Bytes).len
    ∧ ∃ b0 b1, (GoSlice.ofList [0xAF, 0x01] : Bytes).get? 0 = some b0
      ∧ (GoSlice.ofList [0xAF, 0x01] : Bytes).get? 1 = some b1
      ∧ AVCCFrame.IsIDR (GoSlice.ofList [0xAF, 0x01]) = some (b0 >>> 4 == 1 || b0 >>> 4 == 4)
      ∧ AVCCFrame.IsSequence (GoSlice.ofList [0xAF, 0x01]) = some (b1 == 0)
      ∧ AVCCFrame.VideoCodecID (GoSlice.ofList [0xAF, 0x01]) = some (b0 &&& 0x0F)
      ∧ AVCCFrame.AudioCodecID (GoSlice.ofList [0xAF, 0x01]) = some (b0 >>> 4)
      ∧ ((AVCCFrame.CTS (GoSlice.ofList [0xAF, 0x01])).isSome = true
          ↔ 5 ≤ (GoSlice.ofList [0xAF, 0x01] : Bytes).len) :=
  ⟨by decide, AVCCFrame_accessors_in_range (GoSlice.ofList [0xAF, 0x01]) (by decide)⟩

/-- C12, at the failing input: on the frame `17 01 01 00 00`, whose bytes 2..4
hold the 24-bit big-endian value 65536, `CTS` returns 16777216: byte 2 is
shifted by 24 bits, not by 16, and the result is not below `2 ^ 24`. On
`17 01 00 01 02` the two low bytes are placed as claimed. -/
theorem CTS_shifts_high_byte_by_24 :
    AVCCFrame.CTS (GoSlice.ofList [0x17, 0x01, 0x01, 0x00, 0x00]) = some 16777216
    ∧ (1 * 65536 + 0 * 256 + 0 : Nat) = 65536
    ∧ ¬ ((16777216 : Nat) < 2 ^ 24)
    ∧ AVCCFrame.CTS (GoSlice.ofList [0x17, 0x01, 0x00, 0x01, 0x02]) = some (1 * 256 + 2) := by
  refine ⟨by decide, by decide, by decide, by decide⟩

/-- C13, on every track: `Audio.Detach` sets `Stream` to nil and then calls
`RemoveTrack` on it, so it panics on the nil stream and records no
`RemoveTrack`, whatever stream the track had. -/
theorem Detach_dereferences_nil_stream (w : World) :
    Audio.Detach w = Outcome.panic { w with track := { w.track with Stream := none } }
    ∧ (Audio.Detach w).panicked = true
    ∧ (Audio.Detach w).world.trace = w.trace
    ∧ (Audio.Detach sampleWorld).panicked = true
    ∧ sampleWorld.track.Stream = some 1 := by
  exact ⟨rfl, rfl, rfl, rfl, rfl⟩

/-- C17: take a frame with an empty FLV list, run `FillFLV`, then `Reset`, then
give it any AVCC buffers `A`. `FillFLV t ts` on it starts from the old 15-byte
header buffer (the path that reuses), on a fresh frame with a nil FLV list and
the same AVCC buffers it allocates, and both leave the same FLV bytes: nothing
of the previous tag survives. -/
theorem FillFLV_reuse_matches_fresh (av0 fresh : AVFrame) (t0 ts0 t ts : Nat) (A : Buffers)
    (h0 : av0.FLV.len = 0) (hfresh : fresh.FLV = GoSlice.nil) (hA : fresh.AVCC = A) :
    AVFrame.flvHeaderBuffer { (av0.FillFLV t0 ts0).Reset with AVCC := A } ≠ none
    ∧ fresh.flvHeaderBuffer = none
    ∧ Buffers.bytes (AVFrame.FillFLV { (av0.FillFLV t0 ts0).Reset with AVCC := A } t ts).FLV
        = Buffers.bytes (fresh.FillFLV t ts).FLV := by
  obtain ⟨header, rest, spare, hflv, hcap⟩ := AVFrame.FillFLV_header_cap av0 t0 ts0 h0
  have hreset : (av0.FillFLV t0 ts0).Reset.FLV
      = GoSlice.mk [] (header :: rest ++ spare) := by
    rw [AVFrame.Reset_FLV, hflv]
    simp [GoSlice.isNil, GoSlice.sliceTo]
  refine ⟨?_, ?_, ?_⟩
  · have hc : (GoSlice.mk ([] : List Bytes) (header :: rest ++ spare)).cap > 0 := by
      simp [GoSlice.cap, GoSlice.toList_mk, GoSlice.spareList_mk]
    have hg : ((GoSlice.mk ([] : List Bytes) (header :: rest ++ spare)).sliceTo 1).get? 0
        = some header := by
      simp [GoSlice.sliceTo, GoSlice.get?, GoSlice.toList_mk]
    simp only [AVFrame.flvHeaderBuffer, hreset, hc, hg, hcap, if_true]
    simp
  · simp [AVFrame.flvHeaderBuffer, hfresh, GoSlice.cap, GoSlice.toList, GoSlice.spareList]
  · have e1 := AVFrame.FillFLV_FLV_toList
      { (av0.FillFLV t0 ts0).Reset with AVCC := A } t ts
    have e2 := AVFrame.FillFLV_FLV_toList fresh t ts
    simp only [Buffers.bytes] at e1 e2 ⊢
    rw [e1, e2, hfresh, hA, hreset]
    rfl

/-- Witness of C17: `sampleFrame` tagged, reset and given the one AVCC buffer
`AF 01 09`, against a new frame with that buffer. -/
theorem FillFLV_reuse_matches_fresh_witness :
    Buffers.bytes (AVFrame.FillFLV
        { (sampleFrame.FillFLV 8 7).Reset with
          AVCC := GoSlice.ofList [GoSlice.ofList [0xAF, 1, 9]] } 8 0x01020304).FLV
      = Buffers.bytes (AVFrame.FillFLV
          { (AAC.NewAAC none).Value with
            AVCC := GoSlice.ofList [GoSlice.ofList [0xAF, 1, 9]] } 8 0x01020304).FLV :=
  (FillFLV_reuse_matches_fresh sampleFrame
    { (AAC.NewAAC none).Value with AVCC := GoSlice.ofList [GoSlice.ofList [0xAF, 1, 9]] }
    8 7 8 0x01020304 (GoSlice.ofList [GoSlice.ofList [0xAF, 1, 9]]) (by decide) rfl rfl).2.2

/-- C18: for an ADTS header of at least four bytes, `WriteADTS` leaves
`DecoderConfiguration.Raw = [c1, c2]`, the two configuration bytes it builds,
and decoding them with the formulas of `AAC.WriteAVCC` gives back the
`Profile`, the `Channels` and the sampling-frequency index, hence the
`SampleRate`, that `WriteADTS` stored on the track. -/
theorem WriteADTS_configuration_round_trip (w : World) (adts : Bytes) (adts2 adts3 : Nat)
    (h2 : adts.get? 2 = some adts2) (h3 : adts.get? 3 = some adts3) :
    ∃ c1 c2,
      (Audio.WriteADTS w adts).world.track.DecoderConfiguration.Raw.toList = [c1, c2]
      ∧ c1 = ADTS.config1 adts2 ∧ c2 = ADTS.config2 adts2 adts3
      ∧ (c1 &&& 0xF8) >>> 3 = (Audio.WriteADTS w adts).world.track.Profile
      ∧ (c2 >>> 3) &&& 0x0F = (Audio.WriteADTS w adts).world.track.Channels
      ∧ ((c1 &&& 0x07) <<< 1) ||| (c2 >>> 7) = (adts2 &&& 0x3c) >>> 2
      ∧ SamplingFrequencies.get? (((c1 &&& 0x07) <<< 1) ||| (c2 >>> 7))
          = some (Audio.WriteADTS w adts).world.track.SampleRate := by
  obtain ⟨freq, hf, hlt, hrun⟩ := Audio.WriteADTS_run w adts adts2 adts3 h2 h3
  obtain ⟨d1, d2, d3⟩ := ADTS.config_decodes adts2 adts3
  refine ⟨ADTS.config1 adts2, ADTS.config2 adts2 adts3, ?_, rfl, rfl, ?_, ?_, d3, ?_⟩
  · rw [hrun, Audio.Attach_track]; rfl
  · rw [hrun, Audio.Attach_track]; exact d1
  · rw [hrun, Audio.Attach_track]; exact d2
  · rw [hrun, Audio.Attach_track, d3, hf]
    exact congrArg some (Nat.mod_eq_of_lt hlt).symm

/-- Witness of C18: the ADTS header `FF F1 50 80 ...` gives the bytes `12 10`,
profile 2, two channels and 44100 Hz. -/
theorem WriteADTS_configuration_round_trip_witness :
    ∃ c1 c2,
      (Audio.WriteADTS sampleWorld sampleADTS).world.track.DecoderConfiguration.Raw.toList
        = [c1, c2]
      ∧ c1 = ADTS.config1 0x50 ∧ c2 = ADTS.config2 0x50 0x80
      ∧ (c1 &&& 0xF8) >>> 3 = (Audio.WriteADTS sampleWorld sampleADTS).world.track.Profile
      ∧ (c2 >>> 3) &&& 0x0F = (Audio.WriteADTS sampleWorld sampleADTS).world.track.Channels
      ∧ ((c1 &&& 0x07) <<< 1) ||| (c2 >>> 7) = (0x50 &&& 0x3c) >>> 2
      ∧ SamplingFrequencies.get? (((c1 &&& 0x07) <<< 1) ||| (c2 >>> 7))
          = some (Audio.WriteADTS sampleWorld sampleADTS).world.track.SampleRate :=
  WriteADTS_configuration_round_trip sampleWorld sampleADTS 0x50 0x80 rfl rfl

/-- C19: for an ADTS header of at least four bytes, the FLV tag `WriteADTS`
installs is `adcflv1`, the record `[0xAF, 0x00, c1, c2]`, `adcflv2`; its bytes
are those of the tag `FillFLV` builds, with the audio tag type at timestamp 0,
on any frame with an empty FLV list whose AVCC list is the installed one: the
data-size field is 4 and the trailing size 15. `Raw` is `[c1, c2]`. -/
theorem WriteADTS_tag_matches_FillFLV (w : World) (adts : Bytes) (adts2 adts3 : Nat)
    (av : AVFrame) (h2 : adts.get? 2 = some adts2) (h3 : adts.get? 3 = some adts3)
    (hflv : av.FLV.len = 0)
    (havcc : av.AVCC = (Audio.WriteADTS w adts).world.track.DecoderConfiguration.AVCC) :
    ∃ c1 c2,
      (Audio.WriteADTS w adts).world.track.DecoderConfiguration.FLV
        = GoSlice.ofList [adcflv1, GoSlice.ofList [0xAF, 0x00, c1, c2], adcflv2]
      ∧ (Audio.WriteADTS w adts).world.track.DecoderConfiguration.AVCC
        = GoSlice.ofList [GoSlice.ofList [0xAF, 0x00, c1, c2]]
      ∧ Buffers.bytes (Audio.WriteADTS w adts).world.track.DecoderConfiguration.FLV
        = [8, 0, 0, 4, 0, 0, 0, 0, 0, 0, 0, 0xAF, 0x00, c1, c2, 0, 0, 0, 15]
      ∧ Buffers.bytes (Audio.WriteADTS w adts).world.track.DecoderConfiguration.FLV
        = Buffers.bytes (av.FillFLV FLV_TAG_TYPE_AUDIO 0).FLV
      ∧ (Audio.WriteADTS w adts).world.track.DecoderConfiguration.Raw.toList = [c1, c2] := by
  obtain ⟨freq, hf, hlt, hrun⟩ := Audio.WriteADTS_run w adts adts2 adts3 h2 h3
  rw [hrun, Audio.Attach_track] at havcc
  simp only [] at havcc
  rw [hrun, Audio.Attach_track]
  refine ⟨ADTS.config1 adts2, ADTS.config2 adts2 adts3, rfl, rfl, rfl, ?_, rfl⟩
  have e := AVFrame.FillFLV_FLV_toList av FLV_TAG_TYPE_AUDIO 0
  have h0 : Buffers.bytes av.FLV = [] := by
    simp [Buffers.bytes, GoSlice.toList_eq_nil_of_len _ hflv]
  have hs : SizeOfBuffers av.AVCC = 4 := by rw [havcc]; rfl
  have hb : Buffers.bytes av.AVCC
      = [0xAF, 0x00, ADTS.config1 adts2, ADTS.config2 adts2 adts3] := by rw [havcc]; rfl
  simp only [Buffers.bytes] at e h0 hb ⊢
  rw [e, h0, hs, hb]
  rfl

/-- Witness of C19: the tag installed for the header `FF F1 50 80 ...`. -/
theorem WriteADTS_tag_matches_FillFLV_witness :
    Buffers.bytes (Audio.WriteADTS sampleWorld sampleADTS).world.track.DecoderConfiguration.FLV
      = Buffers.bytes (AVFrame.FillFLV
          { (AAC.NewAAC none).Value with
            AVCC := (Audio.WriteADTS sampleWorld
              sampleADTS).world.track.DecoderConfiguration.AVCC }
          FLV_TAG_TYPE_AUDIO 0).FLV :=
  (WriteADTS_tag_matches_FillFLV sampleWorld sampleADTS 0x50 0x80
    { (AAC.NewAAC none).Value with
      AVCC := (Audio.WriteADTS sampleWorld sampleADTS).world.track.DecoderConfiguration.AVCC }
    rfl rfl (by decide) rfl).elim fun _ h => h.elim fun _ h => h.2.2.2.1

/-- C20, at the failing input: for the accepted sequence header
`AF 00 12 10 56`, of five bytes, the tag `AAC.WriteAVCC` installs is `adcflv1`,
the frame, `adcflv2`: its data-size field is 4, not 5, and its trailing size is
15, not 16, while `FillFLV` on that frame writes 5 and 16. On every track the
installed tag of an accepted header is `adcflv1`, the frame, `adcflv2`. -/
theorem WriteAVCC_tag_sizes_fixed (env : Env) (w : World) (ts : Nat) :
    (AAC.WriteAVCC env w ts sampleLongSequenceHeader).world.track.DecoderConfiguration.FLV
      = GoSlice.ofList [adcflv1, sampleLongSequenceHeader, adcflv2]
    ∧ Buffers.bytes
        (AAC.WriteAVCC env w ts sampleLongSequenceHeader).world.track.DecoderConfiguration.FLV
      = [8, 0, 0, 4, 0, 0, 0, 0, 0, 0, 0, 0xAF, 0x00, 0x12, 0x10, 0x56, 0, 0, 0, 15]
    ∧ sampleLongSequenceHeader.len = 5
    ∧ Buffers.bytes (AVFrame.FillFLV
        { (AAC.NewAAC none).Value with AVCC := GoSlice.ofList [sampleLongSequenceHeader] }
        FLV_TAG_TYPE_AUDIO 0).FLV
      = [8, 0, 0, 5, 0, 0, 0, 0, 0, 0, 0, 0xAF, 0x00, 0x12, 0x10, 0x56, 0, 0, 0, 16] := by
  have hrun := WriteAVCC_run_of_header env w ts sampleLongSequenceHeader 0x12 0x10 44100
    rfl rfl rfl rfl
  rw [hrun, Audio.Attach_track]
  exact ⟨rfl, rfl, rfl, by decide⟩

/-- Counterexample to C14: `sampleConfig` holds a nested `Config` under `rtmp`
and `sampleSource` gives the value 1, which is not a map; after
`Assign` the key still holds the nested `Config`, not the value of the
source. -/
theorem Assign_nested_config_not_overridden :
    sampleSource.get? "rtmp" = some (AnyValue.other 1)
    ∧ (AnyValue.other 1).isMap = false
    ∧ (Config.Assign sampleConfig sampleSource).get? "rtmp"
        = some (AnyValue.config (.entry "chunksize" (.other 512) .empty))
    ∧ (Config.Assign sampleConfig sampleSource).get? "rtmp" ≠ sampleSource.get? "rtmp" := by
  refine ⟨rfl, rfl, rfl, ?_⟩
  intro h
  have h1 : (Config.Assign sampleConfig sampleSource).get? "rtmp"
      = some (AnyValue.config (.entry "chunksize" (.other 512) .empty)) := rfl
  have h2 : sampleSource.get? "rtmp" = some (AnyValue.other 1) := rfl
  rw [h1, h2] at h
  cases h

/-- C14, amended: for a source whose keys are distinct, after `Assign` every
key of the source whose value is not a map reads that value, provided `config`
did not hold a nested `Config` under it; where `config` held a nested `Config`
it still holds it; and a key that the source does not have reads as before. -/
theorem Assign_overrides_unless_nested (config source : Config)
    (hkeys : source.keys.Nodup) :
    (∀ k v, source.get? k = some v → v.isMap = false →
        (∀ m, config.get? k ≠ some (AnyValue.config m)) →
        (Config.Assign config source).get? k = some v)
    ∧ (∀ k v m, source.get? k = some v → v.isMap = false →
        config.get? k = some (AnyValue.config m) →
        (Config.Assign config source).get? k = some (AnyValue.config m))
    ∧ (∀ k, source.get? k = none →
        (Config.Assign config source).get? k = config.get? k) := by
  refine ⟨?_, ?_, ?_⟩
  · intro k v hs hv hc
    obtain ⟨x, rfl⟩ := AnyValue.eq_other_of_isMap v hv
    exact Config.get?_Assign_other source config k x hkeys hs hc
  · intro k v m hs hv hc
    obtain ⟨x, rfl⟩ := AnyValue.eq_other_of_isMap v hv
    exact Config.get?_Assign_nested source config k x m hkeys hs hc
  · intro k hs
    exact Config.get?_Assign_of_not_mem source config k
      (Config.not_mem_keys_of_get? source k hs)

/-- Witness of C14, amended: `sampleSource` assigned to `sampleConfig` replaces
`port`, adds `loglevel` and keeps the section `rtmp`. -/
theorem Assign_overrides_unless_nested_witness :
    sampleSource.keys.Nodup
    ∧ (Config.Assign sampleConfig sampleSource).get? "port" = some (AnyValue.other 8080)
    ∧ (Config.Assign sampleConfig sampleSource).get? "loglevel" = some (AnyValue.other 2)
    ∧ (Config.Assign sampleConfig sampleSource).get? "rtmp"
        = some (AnyValue.config (.entry "chunksize" (.other 512) .empty)) :=
  have hnd : sampleSource.keys.Nodup := by decide
  have hport : ∀ m, sampleConfig.get? "port" ≠ some (AnyValue.config m) := by
    intro m h
    have h1 : sampleConfig.get? "port" = some (AnyValue.other 1935) := rfl
    rw [h1] at h
    cases h
  have hlog : ∀ m, sampleConfig.get? "loglevel" ≠ some (AnyValue.config m) := by
    intro m h
    have h1 : sampleConfig.get? "loglevel" = none := rfl
    rw [h1] at h
    cases h
  ⟨hnd,
    (Assign_overrides_unless_nested sampleConfig sampleSource hnd).1 "port" _ rfl rfl hport,
    (Assign_overrides_unless_nested sampleConfig sampleSource hnd).1 "loglevel" _ rfl rfl hlog,
    (Assign_overrides_unless_nested sampleConfig sampleSource hnd).2.1 "rtmp" _ _ rfl rfl rfl⟩

/-- C15: `Merge` returns, and in its result every key that `config` had reads
its previous value, every key of the source that `config` did not have reads
the value of the source, and a key that neither had is absent. -/
theorem Merge_adds_absent_keys_only (config source : Config) :
    ∃ merged, Config.Merge config source = some merged
      ∧ (∀ k v, config.get? k = some v → merged.get? k = some v)
      ∧ (∀ k v, config.get? k = none → source.get? k = some v → merged.get? k = some v)
      ∧ (∀ k, config.get? k = none → source.get? k = none → merged.get? k = none) := by
  obtain ⟨merged, hm, hg⟩ := Config.Merge_get? source config
  refine ⟨merged, hm, ?_, ?_, ?_⟩
  · intro k v hc
    rw [hg k, hc]
  · intro k v hc hs
    rw [hg k, hc, hs]
  · intro k hc hs
    rw [hg k, hc, hs]

/-- Witness of C15: `sampleSource` merged into `sampleConfig` keeps `rtmp` and
`port` and adds `loglevel`. -/
theorem Merge_adds_absent_keys_only_witness :
    ∃ merged, Config.Merge sampleConfig sampleSource = some merged
      ∧ merged.get? "port" = some (AnyValue.other 1935)
      ∧ merged.get? "rtmp" = some (AnyValue.config (.entry "chunksize" (.other 512) .empty))
      ∧ merged.get? "loglevel" = some (AnyValue.other 2)
      ∧ merged.get? "http" = none :=
  (Merge_adds_absent_keys_only sampleConfig sampleSource).elim fun merged h =>
    ⟨merged, h.1, h.2.1 "port" _ rfl, h.2.1 "rtmp" _ rfl, h.2.2.1 "loglevel" _ rfl rfl,
      h.2.2.2 "http" rfl rfl⟩

end M7s
